/-
  Verification development for the YandereOS kernel core (kernel.h /
  kernel implementation, V3.5).

  The kernel state and its operations are shallowly embedded: the fixed
  C arrays become Lean lists of the same length, `size_t` / `uint32_t`
  arithmetic is Nat arithmetic reduced modulo 2^32 exactly where the C
  code computes in 32-bit unsigned words (the target board, an Arduino
  Giga R1 / STM32H747, is a 32-bit platform), and calls that read the
  hardware clock take the `millis()` reading as an explicit argument.

  External collaborators (the SD library's `File` objects, the Wire/SPI
  buses, the serial logger, and the user task bodies behind the stored
  entry points) are outside the repository; operations that delegate to
  them are modelled up to the point where control leaves the kernel
  (e.g. `schedule` reports *which* entry point it invokes, and the
  device-driver wrappers report the permission-gate decision).
-/
import Mathlib

set_option maxHeartbeats 1000000

/-! ## Configuration constants (kernel.h) -/

def MAX_TASKS : Nat := 8
def MAX_FILE_HANDLES : Nat := 16
def MAX_DIR_HANDLES : Nat := 4
def MAX_MESSAGE_QUEUE_SIZE : Nat := 16
def MAX_SEMAPHORES : Nat := 8
def WATCHDOG_TIMEOUT_MS : Nat := 5000

/-- `KERNEL_HEAP_SIZE` for the ARDUINO_GIGA target: 512 * 1024. -/
def KERNEL_HEAP_SIZE : Nat := 512 * 1024

/-- `sizeof(MemoryBlock)` on the 32-bit target:
`{size_t size; int ownerTaskId; bool inUse; int handleId}` packs to
4 + 4 + 1 (+3 padding) + 4 = 16 bytes. -/
def MEMORY_BLOCK_HEADER_SIZE : Nat := 16

/-- Modulus of 32-bit unsigned arithmetic (`size_t`, `uint32_t` on the
STM32H747). -/
def U32 : Nat := 4294967296

/-- Wrapping 32-bit subtraction `a - b`, as computed by C unsigned
arithmetic (used for `millis()` deltas and `memoryUsed -= size`). -/
def u32sub (a b : Nat) : Nat := ((a % U32) + U32 - b % U32) % U32

/-- Wrapping 32-bit addition (used where `size_t` sums may overflow). -/
def u32add (a b : Nat) : Nat := (a + b) % U32

/-! ## Syscall result codes (enum SyscallResult) -/

def SYS_OK : Int := 0
def SYS_ERR_INVALID_CALL : Int := -1
def SYS_ERR_PERMISSION : Int := -2
def SYS_ERR_NO_MEMORY : Int := -3
def SYS_ERR_NOT_FOUND : Int := -4
def SYS_ERR_IO_ERROR : Int := -5
def SYS_ERR_INVALID_PARAM : Int := -6
def SYS_ERR_TIMEOUT : Int := -7
def SYS_ERR_WOULD_BLOCK : Int := -8

/-! ## Task table (source names `TaskState` / `Task`; the `K` prefix
avoids the clash with Lean's builtin `Task` type) -/

inductive KTaskState where
  | empty
  | ready
  | running
  | sleeping
  | blocked
  | zombie
deriving DecidableEq, Repr

/-- `struct Task`.  The per-task file/dir handle bitmaps and the captured
stack-trace snapshot are omitted: they interact only with the external
filesystem layer and the panic diagnostics, not with any modelled
operation's observable behaviour.  The C entry point is a raw function
pointer into user code; the model records only whether it is non-null
(`hasEntry`), since invoking it leaves the kernel. -/
structure KTask where
  id : Int
  name : String
  state : KTaskState
  hasEntry : Bool
  priority : Int
  sleepUntil : Nat
  lastRun : Nat
  lastYield : Nat
  memoryUsed : Nat
  canAccessSD : Bool
  canAccessDisplay : Bool
  canCreateTasks : Bool
  canAccessGPIO : Bool
  canAccessI2C : Bool
  canAccessSPI : Bool
deriving DecidableEq, Repr

/-- A zero-initialised task slot (C static storage duration zeroes the
array; `init()` then overwrites `state`, `id` and `stackTraceDepth`). -/
def KTask.zeroed : KTask :=
  { id := -1, name := "", state := .empty, hasEntry := false, priority := 0,
    sleepUntil := 0, lastRun := 0, lastYield := 0, memoryUsed := 0,
    canAccessSD := false, canAccessDisplay := false, canCreateTasks := false,
    canAccessGPIO := false, canAccessI2C := false, canAccessSPI := false }

instance : Inhabited KTask := ⟨KTask.zeroed⟩

/-! ## Heap (struct MemoryBlock) -/

/-- `struct MemoryBlock`: the header written at the start of every heap
block.  The payload bytes themselves are not modelled (no claim reads
them); the heap is the ordered list of blocks laid out from offset 0. -/
structure MemoryBlock where
  size : Nat
  ownerTaskId : Int
  inUse : Bool
  handleId : Int
deriving DecidableEq, Repr

instance : Inhabited MemoryBlock := ⟨⟨0, -1, false, -1⟩⟩

/-- Total footprint of a block: header plus payload. -/
def MemoryBlock.total (b : MemoryBlock) : Nat :=
  MEMORY_BLOCK_HEADER_SIZE + b.size

/-- Sum of the footprints of a list of blocks (the heap watermark of a
well-formed heap). -/
def heapTotal (blocks : List MemoryBlock) : Nat :=
  (blocks.map MemoryBlock.total).sum

/-- Sum of payload sizes of the in-use blocks. -/
def liveSum (blocks : List MemoryBlock) : Nat :=
  ((blocks.filter (·.inUse)).map MemoryBlock.size).sum

/-! ## IPC structures (struct Message, MessageQueue, Semaphore) -/

/-- `struct Message`.  `data` holds the meaningful stored bytes (the C
code copies exactly `length` bytes in and never reads past `length`
bytes out of the 64-byte array, so the junk tail is not modelled). -/
structure Message where
  fromTaskId : Int
  toTaskId : Int
  data : List Nat
  length : Nat
  timestamp : Nat
  valid : Bool
deriving DecidableEq, Repr

instance : Inhabited Message := ⟨⟨0, 0, [], 0, 0, false⟩⟩

structure MessageQueue where
  messages : List Message
  head : Nat
  tail : Nat
  count : Nat
deriving DecidableEq, Repr

def MessageQueue.init : MessageQueue :=
  { messages := List.replicate MAX_MESSAGE_QUEUE_SIZE default,
    head := 0, tail := 0, count := 0 }

instance : Inhabited MessageQueue := ⟨MessageQueue.init⟩

/-- `struct Semaphore` (the diagnostic `name` string is omitted). -/
structure Semaphore where
  value : Int
  maxValue : Int
  inUse : Bool
  ownerTaskId : Nat
deriving DecidableEq, Repr

instance : Inhabited Semaphore := ⟨⟨0, 0, false, 0⟩⟩

/-! ## Kernel state (static members of class Kernel) -/

structure Kernel where
  tasks : List KTask
  currentTaskId : Nat
  heap : List MemoryBlock
  heapUsed : Nat
  queues : List MessageQueue
  sems : List Semaphore
  watchdogEnabled : Bool
  watchdogLastCheck : Nat
  sdInitialized : Bool
deriving DecidableEq, Repr

/-- The idle task created by `Kernel::init` in slot 0 (all capabilities
off; `entryPoint` is never assigned and stays null). -/
def idleTask (now : Nat) : KTask :=
  { id := 0, name := "idle", state := .ready, hasEntry := false,
    priority := 0, sleepUntil := 0, lastRun := 0, lastYield := now,
    memoryUsed := 0,
    canAccessSD := false, canAccessDisplay := false, canCreateTasks := false,
    canAccessGPIO := false, canAccessI2C := false, canAccessSPI := false }

/-- `Kernel::init()`: state after a successful boot at time `now`
(`millis()` at boot); `sdOk` is whether `SD.begin` succeeded. -/
def kernelInit (now : Nat) (sdOk : Bool) : Kernel :=
  { tasks := idleTask now :: List.replicate (MAX_TASKS - 1) KTask.zeroed,
    currentTaskId := 0,
    heap := [],
    heapUsed := 0,
    queues := List.replicate MAX_TASKS MessageQueue.init,
    sems := List.replicate MAX_SEMAPHORES default,
    watchdogEnabled := true,
    watchdogLastCheck := now,
    sdInitialized := sdOk }

/-! ## Task management (Kernel::allocateTaskId / createTask / killTask) -/

/-- `Kernel::allocateTaskId`: first empty slot among indices 1..7
(slot 0 is the idle task and is never handed out). -/
def allocateTaskId (tasks : List KTask) : Option Nat :=
  ((List.range MAX_TASKS).drop 1).find?
    (fun i => (tasks.getD i default).state == KTaskState.empty)

/-- `Kernel::createTask(name, entryPoint)` at time `now` (= `millis()`).
`hasEntry` records whether the passed entry pointer is non-null.  The
serial logging, the stack-trace capture and the clearing of the per-task
handle bitmaps concern unmodelled fields. -/
def Kernel.createTask (name : String) (hasEntry : Bool) (now : Nat)
    (s : Kernel) : Kernel × Int :=
  match allocateTaskId s.tasks with
  | none => (s, SYS_ERR_NO_MEMORY)
  | some taskId =>
    let task : KTask :=
      { id := Int.ofNat taskId, name := name, state := .ready,
        hasEntry := hasEntry, priority := 10, lastRun := 0,
        lastYield := now, sleepUntil := 0, memoryUsed := 0,
        canAccessSD := true, canAccessDisplay := true,
        canCreateTasks := false, canAccessGPIO := true,
        canAccessI2C := false, canAccessSPI := false }
    ({ s with tasks := s.tasks.set taskId task }, Int.ofNat taskId)

/-- `Kernel::killTask(taskId)`: no-op on slot 0, an out-of-range id or
an empty slot; otherwise marks the slot empty with `id = -1`.  The
closing of the killed task's kernel-side file/directory handles touches
only the (unmodelled) handle tables backed by external `File` objects.
Note the code does **not** clear `memoryUsed` nor free heap blocks the
task still owns. -/
def Kernel.killTask (taskId : Int) (s : Kernel) : Kernel :=
  if taskId < 0 ∨ (MAX_TASKS : Int) ≤ taskId ∨ taskId = 0 then s
  else
    let i := taskId.toNat
    if (s.tasks.getD i default).state = .empty then s
    else
      let t := s.tasks.getD i default
      { s with tasks := s.tasks.set i { t with state := .empty, id := -1 } }

/-! ## Scheduling (Kernel::checkWatchdog / schedule / yield / sleep) -/

/-- The body of `Kernel::checkWatchdog`'s task loop, for one task: skip
empty and sleeping slots; past the timeout force `Running → Ready`
(other states kept) and reset `lastYield`. -/
def watchdogStep (now : Nat) (t : KTask) : KTask :=
  if t.state = .empty then t
  else if t.state = .sleeping then t
  else if WATCHDOG_TIMEOUT_MS < u32sub now t.lastYield then
    { t with state := if t.state = .running then .ready else t.state,
             lastYield := now }
  else t

/-- `Kernel::checkWatchdog()` at time `now`.  Gated by `watchdogEnabled`
and by at least 1000 ms since `watchdogLastCheck`; then applies
`watchdogStep` to every task. -/
def Kernel.checkWatchdog (now : Nat) (s : Kernel) : Kernel :=
  if ¬s.watchdogEnabled then s
  else if u32sub now s.watchdogLastCheck < 1000 then s
  else
    { s with
      watchdogLastCheck := now,
      tasks := s.tasks.map (watchdogStep now) }

/-- The selection loop of `Kernel::schedule` (`for i in 0..MAX_TASKS`):
skips empty slots, wakes sleeping tasks whose `sleepUntil ≤ now`, and
tracks the first ready task of strictly highest priority seen so far
(`bestTask`, `bestPriority`).  The first `Nat` argument is the number
of iterations still to run (`MAX_TASKS - i`); `schedule` starts the
loop at `i = 0` with `MAX_TASKS` iterations. -/
def scheduleLoop (now : Nat) :
    Nat → List KTask → Nat → Nat → Int → List KTask × Nat × Int
  | 0, ts, _, bt, bp => (ts, bt, bp)
  | fuel + 1, ts, i, bt, bp =>
    let t := ts.getD i default
    if t.state = .empty then scheduleLoop now fuel ts (i + 1) bt bp
    else if t.state = .sleeping then
      if t.sleepUntil ≤ now then
        let t' := { t with state := KTaskState.ready }
        let ts' := ts.set i t'
        if bp < t'.priority then
          scheduleLoop now fuel ts' (i + 1) i t'.priority
        else scheduleLoop now fuel ts' (i + 1) bt bp
      else scheduleLoop now fuel ts (i + 1) bt bp
    else
      if t.state = .ready ∧ bp < t.priority then
        scheduleLoop now fuel ts (i + 1) i t.priority
      else scheduleLoop now fuel ts (i + 1) bt bp

/-- `Kernel::schedule()` at time `now` (the two `millis()` reads inside
`checkWatchdog` and `schedule` are modelled as the same instant).  The
returned `Option Nat` is the slot whose entry point the quantum invokes
(`current->entryPoint()`), or `none` when the guard
`entryPoint && state == TASK_RUNNING` fails; the user code behind the
entry point is external, so the model stops at the call. -/
def Kernel.schedule (now : Nat) (s : Kernel) : Kernel × Option Nat :=
  let s1 := s.checkWatchdog now
  let r := scheduleLoop now MAX_TASKS s1.tasks 0 0 (-1)
  let ts := r.1
  let bestTask := r.2.1
  let s2 := { s1 with tasks := ts }
  let s3 :=
    if bestTask ≠ s2.currentTaskId then
      let cur := s2.tasks.getD s2.currentTaskId default
      let demoted :=
        if cur.state = .running then
          s2.tasks.set s2.currentTaskId { cur with state := .ready }
        else s2.tasks
      let b := demoted.getD bestTask default
      { s2 with
        currentTaskId := bestTask,
        tasks := demoted.set bestTask
          { b with state := .running, lastRun := now } }
    else s2
  let cur : KTask := s3.tasks.getD s3.currentTaskId default
  let invoked : Option Nat :=
    if cur.hasEntry ∧ cur.state = KTaskState.running then
      some s3.currentTaskId
    else none
  (s3, invoked)

/-- `Kernel::yield()` at time `now`. -/
def Kernel.yield (now : Nat) (s : Kernel) : Kernel :=
  let t := s.tasks.getD s.currentTaskId default
  { s with
    tasks := s.tasks.set s.currentTaskId
      { t with state := .ready, lastYield := now } }

/-- `Kernel::sleep(ms)` at time `now` (`sleepUntil` is a `uint32_t`, so
`millis() + ms` wraps). -/
def Kernel.sleep (ms now : Nat) (s : Kernel) : Kernel :=
  let t := s.tasks.getD s.currentTaskId default
  { s with
    tasks := s.tasks.set s.currentTaskId
      { t with state := .sleeping, sleepUntil := u32add now ms,
               lastYield := now } }

/-! ## Heap (Kernel::allocateMemoryInternal / freeMemoryInternal /
compactMemory / memAlloc / memFree / memAvailable / memCompact) -/

/-- `Kernel::compactMemory()`, block-layout view: the two-cursor sweep
keeps the in-use blocks, in order, packed from offset 0 and sets
`heapUsed` to the write cursor, which accumulates their total
footprints in `size_t` arithmetic.  (The corruption safety check
cannot fire on a list-shaped heap, whose headers tile the used region
by construction.)  This view keeps only the layout below the new
watermark; in the machine the `memmove` sweep leaves the moved
blocks' source bytes — stale headers included — intact beyond it,
which matters only to reads at non-boundary offsets: see
`hsCompactMemory` for the byte-accurate embedding. -/
def Kernel.compactMemory (s : Kernel) : Kernel :=
  { s with
    heap := s.heap.filter (·.inUse),
    heapUsed := heapTotal (s.heap.filter (·.inUse)) % U32 }

/-- `Kernel::allocateMemoryInternal(size, taskId)`.  All `size_t`
arithmetic (`(size+3) & ~3`, `sizeof(MemoryBlock) + size`,
`heapUsed + totalNeeded`, `memoryUsed += size`) is 32-bit and may wrap.
On success the returned `Nat` is the payload offset
(`heapUsed + sizeof(MemoryBlock)` at the time of placement). -/
def Kernel.allocateMemoryInternal (size : Nat) (taskId : Int)
    (s : Kernel) : Kernel × Option Nat :=
  let sz := size % U32
  if sz = 0 then (s, none)
  else
    let sz := (sz + 3) % U32 / 4 * 4
    let totalNeeded := (MEMORY_BLOCK_HEADER_SIZE + sz) % U32
    let s := if KERNEL_HEAP_SIZE < (s.heapUsed + totalNeeded) % U32
             then s.compactMemory else s
    if KERNEL_HEAP_SIZE < (s.heapUsed + totalNeeded) % U32 then (s, none)
    else
      let userPtr := s.heapUsed + MEMORY_BLOCK_HEADER_SIZE
      let block : MemoryBlock :=
        { size := sz, ownerTaskId := taskId, inUse := true, handleId := -1 }
      let tasks :=
        if 0 ≤ taskId ∧ taskId < (MAX_TASKS : Int) then
          let i := taskId.toNat
          let t := s.tasks.getD i default
          s.tasks.set i { t with memoryUsed := u32add t.memoryUsed sz }
        else s.tasks
      ({ s with
          heap := s.heap ++ [block],
          heapUsed := (s.heapUsed + totalNeeded) % U32,
          tasks := tasks }, some userPtr)

/-- Index of the block whose header starts at byte offset `off` of the
heap, if `off` is a block boundary. -/
def blockIndexAt : List MemoryBlock → Nat → Option Nat
  | [], _ => none
  | b :: rest, off =>
    if off = 0 then some 0
    else if off < b.total then none
    else (blockIndexAt rest (off - b.total)).map (· + 1)

/-- `Kernel::freeMemoryInternal(ptr)` for a payload offset `ptr`,
block-layout view.  `getBlockHeader` subtracts the header size; this
view resolves the resulting offset against the current block layout,
so it coincides with the C code exactly when the offset is a current
block boundary (the only case the theorems below exercise, on heaps
whose headers tile the used region).  When it is not, the C code
validates nothing and reads whatever bytes are there — including the
stale headers compaction leaves beyond the watermark — a path this
view cannot see; `hsFreeMemoryInternal` is the byte-accurate
embedding of it, and `memory_accounting_stale_free` shows it breaking
the ownership-accounting equation. -/
def Kernel.freeMemoryInternal (ptr : Nat) (s : Kernel) : Kernel :=
  if ptr = 0 then s
  else
    match (if MEMORY_BLOCK_HEADER_SIZE ≤ ptr then
             blockIndexAt s.heap (ptr - MEMORY_BLOCK_HEADER_SIZE)
           else none) with
    | none => s
    | some k =>
      let b := s.heap.getD k default
      if ¬b.inUse then s
      else
        let tasks :=
          if 0 ≤ b.ownerTaskId ∧ b.ownerTaskId < (MAX_TASKS : Int) then
            let i := b.ownerTaskId.toNat
            let t := s.tasks.getD i default
            s.tasks.set i { t with memoryUsed := u32sub t.memoryUsed b.size }
          else s.tasks
        { s with
          tasks := tasks,
          heap := s.heap.set k { b with inUse := false } }

/-- `Kernel::memAlloc(size)`: allocation charged to the current task. -/
def Kernel.memAlloc (size : Nat) (s : Kernel) : Kernel × Option Nat :=
  s.allocateMemoryInternal size (Int.ofNat s.currentTaskId)

/-- `Kernel::memFree(ptr)`. -/
def Kernel.memFree (ptr : Nat) (s : Kernel) : Kernel :=
  s.freeMemoryInternal ptr

/-- `Kernel::memAvailable()` = `KERNEL_HEAP_SIZE - heapUsed` in
`size_t` arithmetic. -/
def Kernel.memAvailable (s : Kernel) : Nat :=
  u32sub KERNEL_HEAP_SIZE s.heapUsed

/-- `Kernel::memCompact()`. -/
def Kernel.memCompact (s : Kernel) : Kernel := s.compactMemory

/-! ## IPC message queues (Kernel::ipcSend / ipcReceive / ipcPoll) -/

/-- `Kernel::ipcSend(toTaskId, data, length)` at time `now`.
`data = none` models a null pointer; for a non-null pointer the list
holds the bytes at the pointer, of which the code copies the first
`length` (`memcpy(msg->data, data, length)`). -/
def Kernel.ipcSend (toTaskId : Int) (data : Option (List Nat))
    (length : Nat) (now : Nat) (s : Kernel) : Kernel × Int :=
  if toTaskId < 0 ∨ (MAX_TASKS : Int) ≤ toTaskId then
    (s, SYS_ERR_INVALID_PARAM)
  else
    let toT := toTaskId.toNat
    if (s.tasks.getD toT default).state = KTaskState.empty then
      (s, SYS_ERR_NOT_FOUND)
    else if 64 < length then (s, SYS_ERR_INVALID_PARAM)
    else if data = none ∧ 0 < length then (s, SYS_ERR_INVALID_PARAM)
    else
      let q := s.queues.getD toT default
      if MAX_MESSAGE_QUEUE_SIZE ≤ q.count then (s, SYS_ERR_NO_MEMORY)
      else
        let msg : Message :=
          { fromTaskId := Int.ofNat s.currentTaskId, toTaskId := toTaskId,
            data := (data.getD []).take length, length := length,
            timestamp := now, valid := true }
        let q' : MessageQueue :=
          { q with
            messages := q.messages.set q.tail msg,
            tail := (q.tail + 1) % MAX_MESSAGE_QUEUE_SIZE,
            count := q.count + 1 }
        ({ s with queues := s.queues.set toT q' }, SYS_OK)

/-- Outcome of `Kernel::ipcReceive`: the returned code (message length
on success, negative error otherwise), the bytes written to the
caller's buffer, and the sender id written through `fromTaskId` (both
written only on success). -/
structure RecvResult where
  ret : Int
  buffer : Option (List Nat)
  sender : Option Int
deriving DecidableEq, Repr

/-- `Kernel::ipcReceive(buffer, maxLength, fromTaskId)` on the current
task's queue. -/
def Kernel.ipcReceive (maxLength : Nat) (s : Kernel) : Kernel × RecvResult :=
  let q := s.queues.getD s.currentTaskId default
  if q.count = 0 then (s, ⟨SYS_ERR_WOULD_BLOCK, none, none⟩)
  else
    let msg := q.messages.getD q.head default
    if ¬msg.valid then (s, ⟨SYS_ERR_IO_ERROR, none, none⟩)
    else if maxLength < msg.length then (s, ⟨SYS_ERR_INVALID_PARAM, none, none⟩)
    else
      let q' : MessageQueue :=
        { q with
          messages := q.messages.set q.head { msg with valid := false },
          head := (q.head + 1) % MAX_MESSAGE_QUEUE_SIZE,
          count := q.count - 1 }
      ({ s with queues := s.queues.set s.currentTaskId q' },
       ⟨Int.ofNat msg.length, some (msg.data.take msg.length),
        some msg.fromTaskId⟩)

/-- `Kernel::ipcPoll()`. -/
def Kernel.ipcPoll (s : Kernel) : Nat :=
  (s.queues.getD s.currentTaskId default).count

/-- The messages of a mailbox in arrival order: the ring entries at
positions `head, head+1, …, head+count-1` (mod capacity). -/
def mailboxList (q : MessageQueue) : List Message :=
  (List.range q.count).map
    (fun k => q.messages.getD ((q.head + k) % MAX_MESSAGE_QUEUE_SIZE) default)

/-! ## Semaphores (Kernel::semCreate / semWait / semPost / semDestroy) -/

/-- `Kernel::allocateSemaphore`: first slot not in use. -/
def allocateSemaphore (sems : List Semaphore) : Option Nat :=
  (List.range MAX_SEMAPHORES).find? (fun i => !(sems.getD i default).inUse)

/-- `Kernel::semCreate(initialValue, maxValue, name)`. -/
def Kernel.semCreate (initialValue maxValue : Int) (s : Kernel) :
    Kernel × Int :=
  if initialValue < 0 ∨ maxValue < 1 ∨ maxValue < initialValue then
    (s, SYS_ERR_INVALID_PARAM)
  else
    match allocateSemaphore s.sems with
    | none => (s, SYS_ERR_NO_MEMORY)
    | some semId =>
      let sem : Semaphore :=
        { value := initialValue, maxValue := maxValue, inUse := true,
          ownerTaskId := s.currentTaskId }
      ({ s with sems := s.sems.set semId sem }, Int.ofNat semId)

/-- `Kernel::semWait(semId, timeoutMs)`.  After the guards, the body is
a spin loop `while (value <= 0) { …timeout check…; yield(); }`.  In the
single-threaded cooperative model `yield()` does not transfer control,
so `value` cannot change inside the loop: with `value > 0` the call
decrements and succeeds immediately; otherwise it either returns
`SYS_ERR_TIMEOUT` (when `timeoutMs > 0`) or never returns (when
`timeoutMs == 0`) — in both loop cases the semaphore table is
untouched, which is what the model records (the repeated `yield()`
bookkeeping on the current task is omitted). -/
def Kernel.semWait (semId : Int) (s : Kernel) : Kernel × Int :=
  if semId < 0 ∨ (MAX_SEMAPHORES : Int) ≤ semId then
    (s, SYS_ERR_INVALID_PARAM)
  else
    let i := semId.toNat
    let sem := s.sems.getD i default
    if ¬sem.inUse then (s, SYS_ERR_NOT_FOUND)
    else if 0 < sem.value then
      ({ s with sems := s.sems.set i { sem with value := sem.value - 1 } },
       SYS_OK)
    else (s, SYS_ERR_TIMEOUT)

/-- `Kernel::semPost(semId)`. -/
def Kernel.semPost (semId : Int) (s : Kernel) : Kernel × Int :=
  if semId < 0 ∨ (MAX_SEMAPHORES : Int) ≤ semId then
    (s, SYS_ERR_INVALID_PARAM)
  else
    let i := semId.toNat
    let sem := s.sems.getD i default
    if ¬sem.inUse then (s, SYS_ERR_NOT_FOUND)
    else if sem.maxValue ≤ sem.value then (s, SYS_ERR_INVALID_PARAM)
    else
      ({ s with sems := s.sems.set i { sem with value := sem.value + 1 } },
       SYS_OK)

/-- `Kernel::semDestroy(semId)`. -/
def Kernel.semDestroy (semId : Int) (s : Kernel) : Kernel × Int :=
  if semId < 0 ∨ (MAX_SEMAPHORES : Int) ≤ semId then
    (s, SYS_ERR_INVALID_PARAM)
  else
    let i := semId.toNat
    let sem := s.sems.getD i default
    if ¬sem.inUse then (s, SYS_ERR_NOT_FOUND)
    else if sem.ownerTaskId ≠ s.currentTaskId ∧ s.currentTaskId ≠ 0 then
      (s, SYS_ERR_PERMISSION)
    else ({ s with sems := s.sems.set i { sem with inUse := false } }, SYS_OK)

/-! ## Device driver interface and filesystem permission gates.

The GPIO / I²C / SPI wrappers and the filesystem entry points first run
kernel-side checks on the current task and only then touch the external
device or library.  Wrappers whose return value is fully determined by
the kernel are modelled as `Int`; for the rest the model reports the
gate decision: `Gate.err c` when the kernel returns the error `c`
before reaching the device, `Gate.proceeds` when control reaches the
external component (whose result the kernel passes through). -/

inductive Gate where
  | err (code : Int)
  | proceeds
deriving DecidableEq, Repr

/-- `Kernel::gpioSetMode` (returns `SYS_OK` after `pinMode`). -/
def Kernel.gpioSetMode (t : KTask) : Int :=
  if ¬t.canAccessGPIO then SYS_ERR_PERMISSION else SYS_OK

/-- `Kernel::gpioWrite` (returns `SYS_OK` after `digitalWrite`). -/
def Kernel.gpioWrite (t : KTask) : Int :=
  if ¬t.canAccessGPIO then SYS_ERR_PERMISSION else SYS_OK

/-- `Kernel::gpioRead` (passes `digitalRead`'s value through). -/
def Kernel.gpioRead (t : KTask) : Gate :=
  if ¬t.canAccessGPIO then .err SYS_ERR_PERMISSION else .proceeds

/-- `Kernel::gpioAnalogRead`. -/
def Kernel.gpioAnalogRead (t : KTask) : Gate :=
  if ¬t.canAccessGPIO then .err SYS_ERR_PERMISSION else .proceeds

/-- `Kernel::gpioAnalogWrite` (returns `SYS_OK` after `analogWrite`). -/
def Kernel.gpioAnalogWrite (t : KTask) : Int :=
  if ¬t.canAccessGPIO then SYS_ERR_PERMISSION else SYS_OK

/-- `Kernel::i2cBegin` (returns `SYS_OK` after `Wire.begin`). -/
def Kernel.i2cBegin (t : KTask) : Int :=
  if ¬t.canAccessI2C then SYS_ERR_PERMISSION else SYS_OK

/-- `Kernel::i2cWrite(address, data, length)`; `data = none` models a
null pointer.  Past the checks the result depends on the Wire bus. -/
def Kernel.i2cWrite (t : KTask) (data : Option (List Nat)) (length : Nat) :
    Gate :=
  if ¬t.canAccessI2C then .err SYS_ERR_PERMISSION
  else if data = none ∨ length = 0 then .err SYS_ERR_INVALID_PARAM
  else .proceeds

/-- `Kernel::i2cRead(address, buffer, length)`; `bufferNull` models a
null buffer pointer. -/
def Kernel.i2cRead (t : KTask) (bufferNull : Bool) (length : Nat) : Gate :=
  if ¬t.canAccessI2C then .err SYS_ERR_PERMISSION
  else if bufferNull ∨ length = 0 then .err SYS_ERR_INVALID_PARAM
  else .proceeds

/-- `Kernel::i2cRequest` (passes `Wire.requestFrom`'s count through). -/
def Kernel.i2cRequest (t : KTask) : Gate :=
  if ¬t.canAccessI2C then .err SYS_ERR_PERMISSION else .proceeds

/-- `Kernel::spiBegin` (returns `SYS_OK` after `SPI.begin`). -/
def Kernel.spiBegin (t : KTask) : Int :=
  if ¬t.canAccessSPI then SYS_ERR_PERMISSION else SYS_OK

/-- `Kernel::spiTransfer(txData, rxData, length)` (returns `length`
after clocking the bytes; the received bytes go to the caller's
buffer). -/
def Kernel.spiTransfer (t : KTask) (length : Nat) : Int :=
  if ¬t.canAccessSPI then SYS_ERR_PERMISSION
  else if length = 0 then SYS_ERR_INVALID_PARAM
  else Int.ofNat length

/-- `Kernel::spiEnd` (returns `SYS_OK` after `SPI.end`). -/
def Kernel.spiEnd (t : KTask) : Int :=
  if ¬t.canAccessSPI then SYS_ERR_PERMISSION else SYS_OK

/-- `Kernel::fileOpen` up to the storage layer: rejects with `IO_ERROR`
when the SD card is not mounted, with `PERMISSION` without the SD
capability; past the gates it proceeds to handle allocation and
`SD.open`. -/
def Kernel.fileOpen (sd : Bool) (t : KTask) : Gate :=
  if ¬sd then .err SYS_ERR_IO_ERROR
  else if ¬t.canAccessSD then .err SYS_ERR_PERMISSION
  else .proceeds

/-- `Kernel::dirOpen` up to the storage layer (same gates as
`fileOpen`). -/
def Kernel.dirOpen (sd : Bool) (t : KTask) : Gate :=
  if ¬sd then .err SYS_ERR_IO_ERROR
  else if ¬t.canAccessSD then .err SYS_ERR_PERMISSION
  else .proceeds

/-- `Kernel::fileDelete` returns `bool`; the gate is `true` iff the
call passes the mount and capability checks and reaches `SD.remove`
(otherwise the function returns `false` immediately). -/
def Kernel.fileDeleteGate (sd : Bool) (t : KTask) : Bool :=
  sd && t.canAccessSD

/-- `Kernel::fileExists` gate (reaches `SD.exists`). -/
def Kernel.fileExistsGate (sd : Bool) (t : KTask) : Bool :=
  sd && t.canAccessSD

/-- `Kernel::dirCreate` gate (reaches `SD.mkdir`). -/
def Kernel.dirCreateGate (sd : Bool) (t : KTask) : Bool :=
  sd && t.canAccessSD

/-- `Kernel::dirRemove` gate (reaches `SD.rmdir`). -/
def Kernel.dirRemoveGate (sd : Bool) (t : KTask) : Bool :=
  sd && t.canAccessSD

/-! ## System call dispatch (enum SyscallType, Kernel::syscall) -/

/-- `enum SyscallType` — all 47 kinds, in declaration order. -/
inductive SyscallType where
  | SYS_FILE_OPEN
  | SYS_FILE_CLOSE
  | SYS_FILE_READ
  | SYS_FILE_WRITE
  | SYS_FILE_DELETE
  | SYS_FILE_EXISTS
  | SYS_FILE_SIZE
  | SYS_DIR_OPEN
  | SYS_DIR_READ
  | SYS_DIR_CLOSE
  | SYS_DIR_CREATE
  | SYS_DIR_REMOVE
  | SYS_DIR_REWIND
  | SYS_MEM_ALLOC
  | SYS_MEM_FREE
  | SYS_MEM_INFO
  | SYS_MEM_COMPACT
  | SYS_DISPLAY_CLEAR
  | SYS_DISPLAY_PIXEL
  | SYS_DISPLAY_TEXT
  | SYS_DISPLAY_RECT
  | SYS_DISPLAY_UPDATE
  | SYS_TASK_CREATE
  | SYS_TASK_KILL
  | SYS_TASK_YIELD
  | SYS_TASK_SLEEP
  | SYS_TASK_LIST
  | SYS_IPC_SEND
  | SYS_IPC_RECEIVE
  | SYS_IPC_POLL
  | SYS_SEM_CREATE
  | SYS_SEM_WAIT
  | SYS_SEM_POST
  | SYS_SEM_DESTROY
  | SYS_GPIO_PINMODE
  | SYS_GPIO_WRITE
  | SYS_GPIO_READ
  | SYS_GPIO_ANALOG_READ
  | SYS_GPIO_ANALOG_WRITE
  | SYS_I2C_BEGIN
  | SYS_I2C_WRITE
  | SYS_I2C_READ
  | SYS_I2C_REQUEST
  | SYS_SPI_BEGIN
  | SYS_SPI_TRANSFER
  | SYS_SPI_END
  | SYS_GET_TIME
  | SYS_PRINT
  | SYS_DBG_PRINT
deriving DecidableEq, Repr

/-- The component operations `Kernel::syscall`'s `switch` forwards to
(one per `case` label in the implementation). -/
inductive KernelFn where
  | fileOpen
  | fileClose
  | fileRead
  | fileWrite
  | fileDelete
  | fileExists
  | fileSize
  | dirOpen
  | dirClose
  | dirRead
  | dirCreate
  | dirRemove
  | dirRewind
  | memAlloc
  | memFree
  | memCompact
  | taskYield
  | taskSleep
  | ipcSend
  | ipcReceive
  | ipcPoll
  | semCreate
  | semWait
  | semPost
  | semDestroy
  | gpioSetMode
  | gpioWrite
  | gpioRead
  | gpioAnalogRead
  | gpioAnalogWrite
  | i2cBegin
  | i2cWrite
  | i2cRead
  | i2cRequest
  | spiBegin
  | spiTransfer
  | spiEnd
  | getTime
deriving DecidableEq, Repr

/-- The `switch` of `Kernel::syscall(type, a1..a4)`: the component
operation each kind forwards to, or `none` for kinds that fall to the
`default:` label, where the function returns `SYS_ERR_INVALID_CALL`.
The cases appear in source order. -/
def syscallTarget : SyscallType → Option KernelFn
  | .SYS_FILE_OPEN => some .fileOpen
  | .SYS_FILE_CLOSE => some .fileClose
  | .SYS_FILE_READ => some .fileRead
  | .SYS_FILE_WRITE => some .fileWrite
  | .SYS_FILE_DELETE => some .fileDelete
  | .SYS_FILE_EXISTS => some .fileExists
  | .SYS_FILE_SIZE => some .fileSize
  | .SYS_DIR_OPEN => some .dirOpen
  | .SYS_DIR_CLOSE => some .dirClose
  | .SYS_DIR_READ => some .dirRead
  | .SYS_DIR_CREATE => some .dirCreate
  | .SYS_DIR_REMOVE => some .dirRemove
  | .SYS_DIR_REWIND => some .dirRewind
  | .SYS_MEM_ALLOC => some .memAlloc
  | .SYS_MEM_FREE => some .memFree
  | .SYS_MEM_COMPACT => some .memCompact
  | .SYS_TASK_YIELD => some .taskYield
  | .SYS_TASK_SLEEP => some .taskSleep
  | .SYS_IPC_SEND => some .ipcSend
  | .SYS_IPC_RECEIVE => some .ipcReceive
  | .SYS_IPC_POLL => some .ipcPoll
  | .SYS_SEM_CREATE => some .semCreate
  | .SYS_SEM_WAIT => some .semWait
  | .SYS_SEM_POST => some .semPost
  | .SYS_SEM_DESTROY => some .semDestroy
  | .SYS_GPIO_PINMODE => some .gpioSetMode
  | .SYS_GPIO_WRITE => some .gpioWrite
  | .SYS_GPIO_READ => some .gpioRead
  | .SYS_GPIO_ANALOG_READ => some .gpioAnalogRead
  | .SYS_GPIO_ANALOG_WRITE => some .gpioAnalogWrite
  | .SYS_I2C_BEGIN => some .i2cBegin
  | .SYS_I2C_WRITE => some .i2cWrite
  | .SYS_I2C_READ => some .i2cRead
  | .SYS_I2C_REQUEST => some .i2cRequest
  | .SYS_SPI_BEGIN => some .spiBegin
  | .SYS_SPI_TRANSFER => some .spiTransfer
  | .SYS_SPI_END => some .spiEnd
  | .SYS_GET_TIME => some .getTime
  | _ => none

/-! ## List access helpers -/

theorem getD_set_self {α : Type} (l : List α) (n : Nat) (a d : α)
    (h : n < l.length) : (l.set n a).getD n d = a := by
  show ((l.set n a).get? n).getD d = a
  rw [List.get?_set_eq_of_lt a h]
  rfl

theorem getD_set_ne {α : Type} (l : List α) (n m : Nat) (a d : α)
    (h : n ≠ m) : (l.set n a).getD m d = l.getD m d := by
  show ((l.set n a).get? m).getD d = (l.get? m).getD d
  rw [List.get?_set_ne a l h]

theorem getD_map {α β : Type} (f : α → β) (l : List α) (n : Nat)
    (dA : α) (dB : β) (h : n < l.length) :
    (l.map f).getD n dB = f (l.getD n dA) := by
  show ((l.map f).get? n).getD dB = f ((l.get? n).getD dA)
  rw [List.get?_map, List.get?_eq_get h]
  rfl

theorem getD_of_le {α : Type} (l : List α) (n : Nat) (d : α)
    (h : l.length ≤ n) : l.getD n d = d := by
  show (l.get? n).getD d = d
  rw [List.get?_len_le h]
  rfl

/-! ## Claim C3 -/

/-- Claim C3 (counterexample): `SYS_MEM_INFO` belongs to the memory
group of the syscall enumeration, yet `Kernel::syscall` has no `case`
for it — it falls to the `default:` label and the call returns
`SYS_ERR_INVALID_CALL`, contradicting the claim that no enumerated kind
returns `INVALID_CALL`. -/
theorem syscallTarget_memInfo_invalidCall :
    syscallTarget SyscallType.SYS_MEM_INFO = none := rfl

/-- Claim C3 (amended): `syscall` forwards every kind it has a `case`
for and returns `INVALID_CALL` exactly for the kinds that fall to
`default:`, namely the five display kinds and `SYS_MEM_INFO`,
`SYS_TASK_CREATE`, `SYS_TASK_KILL`, `SYS_TASK_LIST`, `SYS_PRINT`,
`SYS_DBG_PRINT` — even though all of these belong to the enumeration
(and `mem_info`, `task create/kill/list`, `print`, `debug_print` are in
the spec's partition). -/
theorem syscallTarget_none_iff (k : SyscallType) :
    syscallTarget k = none ↔
      k ∈ [SyscallType.SYS_MEM_INFO, SyscallType.SYS_DISPLAY_CLEAR,
           SyscallType.SYS_DISPLAY_PIXEL, SyscallType.SYS_DISPLAY_TEXT,
           SyscallType.SYS_DISPLAY_RECT, SyscallType.SYS_DISPLAY_UPDATE,
           SyscallType.SYS_TASK_CREATE, SyscallType.SYS_TASK_KILL,
           SyscallType.SYS_TASK_LIST, SyscallType.SYS_PRINT,
           SyscallType.SYS_DBG_PRINT] := by
  cases k <;> decide

/-! ## Claim C10 -/

/-- `allocateTaskId` only returns slots in `[1, MAX_TASKS)`. -/
theorem allocateTaskId_bounds (tasks : List KTask) (i : Nat)
    (h : allocateTaskId tasks = some i) : 1 ≤ i ∧ i < MAX_TASKS := by
  have hmem := List.mem_of_find?_eq_some h
  have h1 : i ∈ List.range MAX_TASKS := (List.range MAX_TASKS).drop_subset 1 hmem
  have h2 : i < MAX_TASKS := List.mem_range.mp h1
  refine ⟨?_, h2⟩
  have : (List.range MAX_TASKS).drop 1 = [1, 2, 3, 4, 5, 6, 7] := by decide
  rw [this] at hmem
  fin_cases hmem <;> omega

/-- Claim C10: every task created through `createTask` starts with the
fixed capability set — SD on, Display on, GPIO on, task creation off,
I²C off, SPI off — so on a freshly created task every I²C and SPI
kernel operation fails the capability gate with `PERMISSION`, while the
GPIO wrappers and the file/directory entry points pass their capability
check. -/
theorem createTask_capabilities (s : Kernel) (name : String) (e : Bool)
    (now : Nat) (i : Nat) (t : KTask)
    (hlen : s.tasks.length = MAX_TASKS)
    (halloc : allocateTaskId s.tasks = some i)
    (ht : t = (s.createTask name e now).1.tasks.getD i default) :
    (t.canAccessSD = true ∧ t.canAccessDisplay = true ∧
     t.canAccessGPIO = true ∧ t.canCreateTasks = false ∧
     t.canAccessI2C = false ∧ t.canAccessSPI = false) ∧
    (Kernel.i2cBegin t = SYS_ERR_PERMISSION ∧
     (∀ d l, Kernel.i2cWrite t d l = Gate.err SYS_ERR_PERMISSION) ∧
     (∀ bn l, Kernel.i2cRead t bn l = Gate.err SYS_ERR_PERMISSION) ∧
     Kernel.i2cRequest t = Gate.err SYS_ERR_PERMISSION ∧
     Kernel.spiBegin t = SYS_ERR_PERMISSION ∧
     (∀ l, Kernel.spiTransfer t l = SYS_ERR_PERMISSION) ∧
     Kernel.spiEnd t = SYS_ERR_PERMISSION) ∧
    (Kernel.gpioSetMode t = SYS_OK ∧ Kernel.gpioWrite t = SYS_OK ∧
     Kernel.gpioRead t = Gate.proceeds ∧
     Kernel.gpioAnalogRead t = Gate.proceeds ∧
     Kernel.gpioAnalogWrite t = SYS_OK) ∧
    (∀ sd, Kernel.fileOpen sd t ≠ Gate.err SYS_ERR_PERMISSION ∧
           Kernel.dirOpen sd t ≠ Gate.err SYS_ERR_PERMISSION ∧
           Kernel.fileDeleteGate sd t = sd ∧
           Kernel.fileExistsGate sd t = sd ∧
           Kernel.dirCreateGate sd t = sd ∧
           Kernel.dirRemoveGate sd t = sd) := by
  have hi := allocateTaskId_bounds s.tasks i halloc
  have hlt : i < s.tasks.length := by omega
  have ht' : t =
      { id := Int.ofNat i, name := name, state := .ready,
        hasEntry := e, priority := 10, lastRun := 0, lastYield := now,
        sleepUntil := 0, memoryUsed := 0,
        canAccessSD := true, canAccessDisplay := true, canCreateTasks := false,
        canAccessGPIO := true, canAccessI2C := false, canAccessSPI := false } := by
    rw [ht]
    simp only [Kernel.createTask, halloc]
    exact getD_set_self _ _ _ _ hlt
  subst ht'
  refine ⟨⟨rfl, rfl, rfl, rfl, rfl, rfl⟩, ⟨rfl, ?_, ?_, rfl, rfl, ?_, rfl⟩,
    ⟨rfl, rfl, rfl, rfl, rfl⟩, ?_⟩
  · intro d l; rfl
  · intro bn l; rfl
  · intro l; rfl
  · intro sd
    cases sd <;>
      exact ⟨by simp [Kernel.fileOpen, SYS_ERR_IO_ERROR, SYS_ERR_PERMISSION],
             by simp [Kernel.dirOpen, SYS_ERR_IO_ERROR, SYS_ERR_PERMISSION],
             rfl, rfl, rfl, rfl⟩

/-- Witness for `createTask_capabilities` at the boot state: slot 1 is
allocated and the fresh task is I²C/SPI-denied but GPIO-allowed. -/
theorem createTask_capabilities_witness :
    (((kernelInit 0 true).createTask "app" true 0).1.tasks.getD 1
        default).canAccessI2C = false ∧
    Kernel.i2cBegin (((kernelInit 0 true).createTask "app" true 0).1.tasks.getD
        1 default) = SYS_ERR_PERMISSION ∧
    Kernel.spiBegin (((kernelInit 0 true).createTask "app" true 0).1.tasks.getD
        1 default) = SYS_ERR_PERMISSION ∧
    Kernel.gpioWrite (((kernelInit 0 true).createTask "app" true 0).1.tasks.getD
        1 default) = SYS_OK := by
  have h := createTask_capabilities (kernelInit 0 true) "app" true 0 1 _
    (by decide) (by decide) rfl
  exact ⟨h.1.2.2.2.2.1, h.2.1.1, h.2.1.2.2.2.2.1, h.2.2.1.2.1⟩

/-! ## Claim C5 -/

/-- Claim C5: `ipcReceive` on the current task's mailbox returns
`WOULD_BLOCK` when the count is zero, `IO_ERROR` when the entry at the
head is not valid, and `INVALID_PARAM` when the stored length exceeds
the caller's buffer size — and in each of the three error cases the
whole kernel state (in particular the mailbox's head, tail, count and
entries) is returned unchanged, so the message stays queued. -/
theorem ipcReceive_error_frame (s : Kernel) (max : Nat) :
    ((s.queues.getD s.currentTaskId default).count = 0 →
       s.ipcReceive max = (s, ⟨SYS_ERR_WOULD_BLOCK, none, none⟩)) ∧
    ((s.queues.getD s.currentTaskId default).count ≠ 0 →
     ((s.queues.getD s.currentTaskId default).messages.getD
        (s.queues.getD s.currentTaskId default).head default).valid = false →
       s.ipcReceive max = (s, ⟨SYS_ERR_IO_ERROR, none, none⟩)) ∧
    ((s.queues.getD s.currentTaskId default).count ≠ 0 →
     ((s.queues.getD s.currentTaskId default).messages.getD
        (s.queues.getD s.currentTaskId default).head default).valid = true →
     max < ((s.queues.getD s.currentTaskId default).messages.getD
        (s.queues.getD s.currentTaskId default).head default).length →
       s.ipcReceive max = (s, ⟨SYS_ERR_INVALID_PARAM, none, none⟩)) := by
  refine ⟨fun h0 => ?_, fun hc hv => ?_, fun hc hv hm => ?_⟩ <;>
    simp only [Kernel.ipcReceive]
  · rw [if_pos h0]
  · rw [if_neg hc, if_pos (ne_true_of_eq_false hv)]
  · rw [if_neg hc, if_neg (not_not_intro hv), if_pos hm]

/-- A state whose current (idle) mailbox claims one message while the
head entry is still `valid = false`. -/
def sampleInvalidHeadState : Kernel :=
  { kernelInit 0 true with
    queues := (kernelInit 0 true).queues.set 0
      { MessageQueue.init with
        count := 1 } }

/-- A state whose current (idle) mailbox holds one valid three-byte
message. -/
def sampleLongMessageState : Kernel :=
  { kernelInit 0 true with
    queues := (kernelInit 0 true).queues.set 0
      { MessageQueue.init with
        count := 1,
        messages := (List.replicate MAX_MESSAGE_QUEUE_SIZE
          (default : Message)).set 0 ⟨0, 0, [1, 2, 3], 3, 0, true⟩ } }

/-- Witness for `ipcReceive_error_frame`: the three error paths hit at
concrete states, each leaving the state untouched. -/
theorem ipcReceive_error_frame_witness :
    (kernelInit 0 true).ipcReceive 2 =
      (kernelInit 0 true, ⟨SYS_ERR_WOULD_BLOCK, none, none⟩) ∧
    sampleInvalidHeadState.ipcReceive 2 =
      (sampleInvalidHeadState, ⟨SYS_ERR_IO_ERROR, none, none⟩) ∧
    sampleLongMessageState.ipcReceive 2 =
      (sampleLongMessageState, ⟨SYS_ERR_INVALID_PARAM, none, none⟩) :=
  ⟨(ipcReceive_error_frame (kernelInit 0 true) 2).1 (by decide),
   (ipcReceive_error_frame sampleInvalidHeadState 2).2.1 (by decide)
     (by decide),
   (ipcReceive_error_frame sampleLongMessageState 2).2.2 (by decide)
     (by decide) (by decide)⟩

/-! ## Claim C7 -/

/-- The four semaphore system calls, as a little op language so that
the invariant can be stated over every call sequence. -/
inductive SemOp where
  | create (initialValue maxValue : Int)
  | wait (semId : Int)
  | post (semId : Int)
  | destroy (semId : Int)
deriving DecidableEq, Repr

def applySemOp (s : Kernel) : SemOp → Kernel
  | .create a b => (s.semCreate a b).1
  | .wait i => (s.semWait i).1
  | .post i => (s.semPost i).1
  | .destroy i => (s.semDestroy i).1

def runSemOps (s : Kernel) (ops : List SemOp) : Kernel :=
  ops.foldl applySemOp s

/-- The claimed bound: every in-use semaphore satisfies
`0 ≤ value ≤ maxValue`. -/
def semBounds (sems : List Semaphore) : Prop :=
  ∀ sem ∈ sems, sem.inUse = true → 0 ≤ sem.value ∧ sem.value ≤ sem.maxValue

theorem getD_mem_or_eq {α : Type} (l : List α) (i : Nat) (d : α) :
    l.getD i d ∈ l ∨ l.getD i d = d := by
  by_cases h : i < l.length
  · left
    show (l.get? i).getD d ∈ l
    rw [List.get?_eq_get h]
    exact List.get_mem l i h
  · right
    exact getD_of_le l i d (le_of_not_lt h)

theorem semBounds_set (l : List Semaphore) (i : Nat) (x : Semaphore)
    (h : semBounds l)
    (hx : x.inUse = true → 0 ≤ x.value ∧ x.value ≤ x.maxValue) :
    semBounds (l.set i x) := by
  intro sem hmem huse
  rcases List.mem_or_eq_of_mem_set hmem with h1 | h1
  · exact h sem h1 huse
  · subst h1; exact hx huse

/-- In-use slots read through `getD` satisfy the bound. -/
theorem semBounds_getD (l : List Semaphore) (i : Nat) (h : semBounds l)
    (huse : (l.getD i default).inUse = true) :
    0 ≤ (l.getD i default).value ∧
      (l.getD i default).value ≤ (l.getD i default).maxValue := by
  rcases getD_mem_or_eq l i default with h1 | h1
  · exact h _ h1 huse
  · rw [h1] at huse; exact absurd huse (by decide)

theorem semCreate_bounds (s : Kernel) (a b : Int) (h : semBounds s.sems) :
    semBounds (s.semCreate a b).1.sems := by
  unfold Kernel.semCreate
  split
  · exact h
  next hok =>
    push_neg at hok
    split
    · exact h
    · exact semBounds_set _ _ _ h (fun _ => by dsimp only; omega)

theorem semWait_bounds (s : Kernel) (i : Int) (h : semBounds s.sems) :
    semBounds (s.semWait i).1.sems := by
  unfold Kernel.semWait
  split
  · exact h
  · dsimp only
    split
    · exact h
    next huse =>
      rw [not_not] at huse
      split
      next hpos =>
        have hb := semBounds_getD s.sems i.toNat h huse
        exact semBounds_set _ _ _ h (fun _ => by dsimp only; omega)
      · exact h

theorem semPost_bounds (s : Kernel) (i : Int) (h : semBounds s.sems) :
    semBounds (s.semPost i).1.sems := by
  unfold Kernel.semPost
  split
  · exact h
  · dsimp only
    split
    · exact h
    next huse =>
      rw [not_not] at huse
      split
      · exact h
      next hlt =>
        push_neg at hlt
        have hb := semBounds_getD s.sems i.toNat h huse
        exact semBounds_set _ _ _ h (fun _ => by dsimp only; omega)

theorem semDestroy_bounds (s : Kernel) (i : Int) (h : semBounds s.sems) :
    semBounds (s.semDestroy i).1.sems := by
  unfold Kernel.semDestroy
  split
  · exact h
  · dsimp only
    split
    · exact h
    · split
      · exact h
      · exact semBounds_set _ _ _ h
          (fun hx => absurd hx (by dsimp only; exact Bool.false_ne_true))

/-- Claim C7: over every sequence of `semCreate`, `semWait`, `semPost`
and `semDestroy` calls from boot, every in-use semaphore slot satisfies
`0 ≤ value ≤ maxValue`; in particular `semPost` on an in-use slot whose
value equals its maximum returns `INVALID_PARAM` leaving the whole
state (hence the semaphore) unchanged, and otherwise increments the
value by exactly one and returns `OK`. -/
theorem semaphore_invariant :
    (∀ (s : Kernel) (op : SemOp),
       semBounds s.sems → semBounds (applySemOp s op).sems) ∧
    (∀ (now : Nat) (sdOk : Bool) (ops : List SemOp),
       semBounds (runSemOps (kernelInit now sdOk) ops).sems) ∧
    (∀ (s : Kernel) (i : Nat), i < MAX_SEMAPHORES →
       (s.sems.getD i default).inUse = true →
       (s.sems.getD i default).value = (s.sems.getD i default).maxValue →
       s.semPost (i : Int) = (s, SYS_ERR_INVALID_PARAM)) ∧
    (∀ (s : Kernel) (i : Nat), i < MAX_SEMAPHORES →
       (s.sems.getD i default).inUse = true →
       (s.sems.getD i default).value < (s.sems.getD i default).maxValue →
       (s.semPost (i : Int)).2 = SYS_OK ∧
       (s.semPost (i : Int)).1.sems =
         s.sems.set i
           { s.sems.getD i default with
             value := (s.sems.getD i default).value + 1 }) := by
  have hstep : ∀ (s : Kernel) (op : SemOp),
      semBounds s.sems → semBounds (applySemOp s op).sems := by
    intro s op h
    cases op with
    | create a b => exact semCreate_bounds s a b h
    | wait i => exact semWait_bounds s i h
    | post i => exact semPost_bounds s i h
    | destroy i => exact semDestroy_bounds s i h
  have htoNat : ∀ i : Nat, ((i : Int)).toNat = i := fun i => Int.toNat_natCast i
  refine ⟨hstep, ?_, ?_, ?_⟩
  · intro now sdOk ops
    have hrun : ∀ (ops : List SemOp) (s : Kernel),
        semBounds s.sems → semBounds (runSemOps s ops).sems := by
      intro l
      induction l with
      | nil => exact fun s hs => hs
      | cons op rest ih => exact fun s hs => ih _ (hstep s op hs)
    refine hrun ops _ ?_
    intro sem hmem huse
    rw [List.eq_of_mem_replicate hmem] at huse
    exact absurd huse (by decide)
  · intro s i hi huse heq
    unfold Kernel.semPost
    rw [if_neg (by omega), htoNat i]
    rw [if_neg (not_not_intro huse), if_pos (le_of_eq heq.symm)]
  · intro s i hi huse hlt
    unfold Kernel.semPost
    rw [if_neg (by omega), htoNat i]
    rw [if_neg (not_not_intro huse), if_neg (not_le_of_lt hlt)]
    exact ⟨rfl, rfl⟩

/-- Witness for `semaphore_invariant` at concrete run: bounds hold
after a create/post/wait run; a post at the maximum is refused without
change; a post below the maximum succeeds. -/
theorem semaphore_invariant_witness :
    semBounds (runSemOps (kernelInit 0 true)
      [SemOp.create 1 2, SemOp.post 0, SemOp.wait 0]).sems ∧
    (runSemOps (kernelInit 0 true) [SemOp.create 2 2]).semPost
        ((0 : Nat) : Int) =
      (runSemOps (kernelInit 0 true) [SemOp.create 2 2],
       SYS_ERR_INVALID_PARAM) ∧
    ((runSemOps (kernelInit 0 true) [SemOp.create 1 2]).semPost
        ((0 : Nat) : Int)).2 = SYS_OK := by
  refine ⟨semaphore_invariant.2.1 0 true _, ?_, ?_⟩
  · exact semaphore_invariant.2.2.1 _ 0 (by decide) (by decide) (by decide)
  · exact (semaphore_invariant.2.2.2 _ 0 (by decide) (by decide)
      (by decide)).1

/-! ## Claim C8 -/

theorem watchdogStep_skip (now : Nat) (t : KTask)
    (h : t.state = KTaskState.empty ∨ t.state = KTaskState.sleeping ∨
         u32sub now t.lastYield ≤ WATCHDOG_TIMEOUT_MS) :
    watchdogStep now t = t := by
  unfold watchdogStep
  rcases h with hc | hc | hc
  · rw [if_pos hc]
  · rw [if_neg (by rw [hc]; decide), if_pos hc]
  · by_cases h1 : t.state = KTaskState.empty
    · rw [if_pos h1]
    · rw [if_neg h1]
      by_cases h2 : t.state = KTaskState.sleeping
      · rw [if_pos h2]
      · rw [if_neg h2, if_neg (by omega)]

theorem watchdogStep_fire (now : Nat) (t : KTask)
    (h1 : t.state ≠ KTaskState.empty) (h2 : t.state ≠ KTaskState.sleeping)
    (h3 : WATCHDOG_TIMEOUT_MS < u32sub now t.lastYield) :
    watchdogStep now t =
      { t with
        state := if t.state = KTaskState.running then KTaskState.ready
                 else t.state,
        lastYield := now } := by
  unfold watchdogStep
  rw [if_neg h1, if_neg h2, if_pos h3]

theorem watchdogStep_not_empty (now : Nat) (t : KTask)
    (h : (watchdogStep now t).state = KTaskState.empty) :
    t.state = KTaskState.empty := by
  by_cases h1 : t.state = KTaskState.empty
  · exact h1
  · unfold watchdogStep at h
    rw [if_neg h1] at h
    by_cases h2 : t.state = KTaskState.sleeping
    · rw [if_pos h2] at h; exact h
    · rw [if_neg h2] at h
      by_cases h3 : WATCHDOG_TIMEOUT_MS < u32sub now t.lastYield
      · rw [if_pos h3] at h
        by_cases h4 : t.state = KTaskState.running
        · simp only [if_pos h4] at h
          exact absurd h (by decide)
        · simp only [if_neg h4] at h
          exact absurd h h1
      · rw [if_neg h3] at h; exact h

/-- Claim C8: `checkWatchdog` is a no-op unless at least 1000 ms have
passed since `watchdogLastCheck`; when it runs (watchdog enabled and
gate passed) it stamps `watchdogLastCheck := now` and, for every
non-empty, non-sleeping task whose time since `lastYield` exceeds
`WATCHDOG_TIMEOUT_MS` (5000 ms), forces `Running → Ready` — leaving
every other state as it was — and resets that task's
`lastYield := now`; tasks below the timeout, empty tasks and sleeping
tasks are untouched, and no task is ever moved to the `Empty` state. -/
theorem checkWatchdog_spec (s : Kernel) (now : Nat) :
    (u32sub now s.watchdogLastCheck < 1000 → s.checkWatchdog now = s) ∧
    (s.watchdogEnabled = true → 1000 ≤ u32sub now s.watchdogLastCheck →
      (s.checkWatchdog now).watchdogLastCheck = now ∧
      (s.checkWatchdog now).tasks.length = s.tasks.length ∧
      (∀ i, i < s.tasks.length →
        (((s.tasks.getD i default).state = KTaskState.empty ∨
          (s.tasks.getD i default).state = KTaskState.sleeping ∨
          u32sub now (s.tasks.getD i default).lastYield ≤
            WATCHDOG_TIMEOUT_MS) →
          (s.checkWatchdog now).tasks.getD i default =
            s.tasks.getD i default) ∧
        ((s.tasks.getD i default).state ≠ KTaskState.empty →
         (s.tasks.getD i default).state ≠ KTaskState.sleeping →
         WATCHDOG_TIMEOUT_MS < u32sub now (s.tasks.getD i default).lastYield →
          (s.checkWatchdog now).tasks.getD i default =
            { s.tasks.getD i default with
              state := if (s.tasks.getD i default).state = KTaskState.running
                       then KTaskState.ready
                       else (s.tasks.getD i default).state,
              lastYield := now }))) ∧
    (∀ i, ((s.checkWatchdog now).tasks.getD i default).state =
            KTaskState.empty →
          (s.tasks.getD i default).state = KTaskState.empty) := by
  refine ⟨?_, ?_, ?_⟩
  · intro hgate
    unfold Kernel.checkWatchdog
    by_cases he : s.watchdogEnabled = true
    · rw [if_neg (not_not_intro he), if_pos hgate]
    · rw [if_pos (by simpa using he)]
  · intro he hgate
    unfold Kernel.checkWatchdog
    rw [if_neg (not_not_intro he), if_neg (by omega)]
    refine ⟨rfl, by simp, ?_⟩
    intro i hi
    have hmap := getD_map (watchdogStep now) s.tasks i default default hi
    constructor
    · intro hcase
      show (s.tasks.map (watchdogStep now)).getD i default = _
      rw [hmap, watchdogStep_skip now _ hcase]
    · intro h1 h2 h3
      show (s.tasks.map (watchdogStep now)).getD i default = _
      rw [hmap, watchdogStep_fire now _ h1 h2 h3]
  · intro i hemp
    by_cases hlen : i < s.tasks.length
    · unfold Kernel.checkWatchdog at hemp
      by_cases he : s.watchdogEnabled = true
      · by_cases hgate : u32sub now s.watchdogLastCheck < 1000
        · rwa [if_neg (not_not_intro he), if_pos hgate] at hemp
        · rw [if_neg (not_not_intro he), if_neg hgate] at hemp
          have hmap := getD_map (watchdogStep now) s.tasks i default default
            hlen
          rw [show ({ s with
                watchdogLastCheck := now,
                tasks := s.tasks.map (watchdogStep now) } : Kernel).tasks =
              s.tasks.map (watchdogStep now) from rfl, hmap] at hemp
          exact watchdogStep_not_empty now _ hemp
      · rw [if_pos (by simpa using he)] at hemp
        exact hemp
    · push_neg at hlen
      rw [getD_of_le _ _ _ hlen]
      rfl

/-- A boot state with a hung `Running` task in slot 1 (`lastYield = 0`). -/
def sampleHungTaskState : Kernel :=
  { kernelInit 0 true with
    tasks := (kernelInit 0 true).tasks.set 1
      { KTask.zeroed with id := 1, state := .running } }

/-- Witness for `checkWatchdog_spec`: at 500 ms the check is a no-op;
at 6000 ms the hung running task in slot 1 is forced to `Ready` with
its `lastYield` reset. -/
theorem checkWatchdog_spec_witness :
    (kernelInit 0 true).checkWatchdog 500 = kernelInit 0 true ∧
    (sampleHungTaskState.checkWatchdog 6000).tasks.getD 1 default =
      { sampleHungTaskState.tasks.getD 1 default with
        state := if (sampleHungTaskState.tasks.getD 1 default).state =
                      KTaskState.running
                 then KTaskState.ready
                 else (sampleHungTaskState.tasks.getD 1 default).state,
        lastYield := 6000 } :=
  ⟨(checkWatchdog_spec (kernelInit 0 true) 500).1 (by decide),
   (((checkWatchdog_spec sampleHungTaskState 6000).2.1 (by decide)
       (by decide)).2.2 1 (by decide)).2 (by decide) (by decide) (by decide)⟩

/-! ## Claim C9 -/

/-- Byte offset of the `k`-th block's header in the heap. -/
def blockOffset (heap : List MemoryBlock) (k : Nat) : Nat :=
  heapTotal (heap.take k)

theorem heapTotal_cons (b : MemoryBlock) (l : List MemoryBlock) :
    heapTotal (b :: l) = b.total + heapTotal l := by
  simp [heapTotal]

theorem heapTotal_append (l1 l2 : List MemoryBlock) :
    heapTotal (l1 ++ l2) = heapTotal l1 + heapTotal l2 := by
  simp [heapTotal]

theorem liveSum_cons (b : MemoryBlock) (l : List MemoryBlock) :
    liveSum (b :: l) = (if b.inUse then b.size else 0) + liveSum l := by
  by_cases h : b.inUse
  · simp [liveSum, List.filter_cons, h]
  · simp [liveSum, List.filter_cons, h]

theorem blockTotal_pos (b : MemoryBlock) : 0 < b.total := by
  show 0 < MEMORY_BLOCK_HEADER_SIZE + b.size
  unfold MEMORY_BLOCK_HEADER_SIZE
  omega

theorem blockIndexAt_blockOffset :
    ∀ (heap : List MemoryBlock) (k : Nat), k < heap.length →
      blockIndexAt heap (blockOffset heap k) = some k := by
  intro heap
  induction heap with
  | nil => intro k hk; exact absurd hk (by simp)
  | cons b rest ih =>
    intro k hk
    cases k with
    | zero =>
      show blockIndexAt (b :: rest) (heapTotal []) = some 0
      unfold blockIndexAt heapTotal
      simp
    | succ k =>
      have hoff : blockOffset (b :: rest) (k + 1) =
          b.total + blockOffset rest k := by
        show heapTotal (b :: rest.take k) = _
        rw [heapTotal_cons]
        rfl
      unfold blockIndexAt
      rw [hoff]
      have hpos := blockTotal_pos b
      rw [if_neg (by omega), if_neg (by omega)]
      have : b.total + blockOffset rest k - b.total = blockOffset rest k := by
        omega
      rw [this, ih k (by simpa using hk)]
      rfl

theorem u32sub_of_le (a b : Nat) (hb : b ≤ a) (ha : a < U32) :
    u32sub a b = a - b := by
  unfold u32sub
  rw [Nat.mod_eq_of_lt ha, Nat.mod_eq_of_lt (show b < U32 by omega)]
  have h2 : a + U32 - b = (a - b) + U32 := by omega
  rw [h2, Nat.add_mod_right, Nat.mod_eq_of_lt (show a - b < U32 by omega)]

theorem all_inUse_filter :
    ∀ (l : List MemoryBlock),
      (∀ j, j < l.length → (l.getD j default).inUse = true) →
      l.filter (·.inUse) = l := by
  intro l
  induction l with
  | nil => intro _; rfl
  | cons b rest ih =>
    intro h
    have hb : b.inUse = true := h 0 (by simp)
    rw [List.filter_cons, if_pos (by simpa using hb)]
    rw [ih (fun j hj => h (j + 1) (by simpa using hj))]

theorem heapTotal_filter_unique :
    ∀ (l : List MemoryBlock) (k : Nat), k < l.length →
      (l.getD k default).inUse = false →
      (∀ j, j < l.length → j ≠ k → (l.getD j default).inUse = true) →
      heapTotal (l.filter (·.inUse)) + (l.getD k default).total =
        heapTotal l := by
  intro l
  induction l with
  | nil => intro k hk; exact absurd hk (by simp)
  | cons b rest ih =>
    intro k hk hfree hot
    cases k with
    | zero =>
      have hb : b.inUse = false := hfree
      have hrest : rest.filter (·.inUse) = rest :=
        all_inUse_filter rest
          (fun j hj => hot (j + 1) (by simpa using hj) (by omega))
      rw [List.filter_cons, if_neg (by simp [hb]), hrest, heapTotal_cons]
      show heapTotal rest + b.total = b.total + heapTotal rest
      omega
    | succ k =>
      have hb : b.inUse = true := hot 0 (by simp) (by omega)
      rw [List.filter_cons, if_pos (by simpa using hb)]
      rw [heapTotal_cons, heapTotal_cons]
      have := ih k (by simpa using hk) hfree
        (fun j hj hjk => hot (j + 1) (by simpa using hj) (by omega))
      show b.total + heapTotal (rest.filter (·.inUse)) +
        (rest.getD k default).total = b.total + heapTotal rest
      omega

/-- Claim C9: `memFree` on a valid in-use block leaves the watermark
`heapUsed` (hence `memAvailable`) unchanged, flipping only that block's
`inUse` bit and refunding its size to the owner's `memoryUsed`; the
freed bytes become available only through compaction, which (when this
was the single freed block) raises `memAvailable` by exactly the
block's size plus the header size. -/
theorem memFree_frame_and_compact :
    (∀ (s : Kernel) (k : Nat),
      k < s.heap.length →
      (s.heap.getD k default).inUse = true →
      (s.memFree (blockOffset s.heap k + MEMORY_BLOCK_HEADER_SIZE)).heapUsed =
          s.heapUsed ∧
      (s.memFree (blockOffset s.heap k +
          MEMORY_BLOCK_HEADER_SIZE)).memAvailable = s.memAvailable ∧
      (s.memFree (blockOffset s.heap k + MEMORY_BLOCK_HEADER_SIZE)).heap =
        s.heap.set k { s.heap.getD k default with inUse := false } ∧
      (s.memFree (blockOffset s.heap k + MEMORY_BLOCK_HEADER_SIZE)).tasks =
        (if 0 ≤ (s.heap.getD k default).ownerTaskId ∧
            (s.heap.getD k default).ownerTaskId < (MAX_TASKS : Int) then
          s.tasks.set (s.heap.getD k default).ownerTaskId.toNat
            { s.tasks.getD (s.heap.getD k default).ownerTaskId.toNat
                default with
              memoryUsed := u32sub (s.tasks.getD
                  (s.heap.getD k default).ownerTaskId.toNat default).memoryUsed
                (s.heap.getD k default).size }
         else s.tasks) ∧
      (s.memFree (blockOffset s.heap k +
          MEMORY_BLOCK_HEADER_SIZE)).currentTaskId = s.currentTaskId ∧
      (s.memFree (blockOffset s.heap k + MEMORY_BLOCK_HEADER_SIZE)).queues =
          s.queues ∧
      (s.memFree (blockOffset s.heap k + MEMORY_BLOCK_HEADER_SIZE)).sems =
          s.sems) ∧
    (∀ (s : Kernel) (k : Nat),
      s.heapUsed = heapTotal s.heap →
      heapTotal s.heap ≤ KERNEL_HEAP_SIZE →
      k < s.heap.length →
      (s.heap.getD k default).inUse = false →
      (∀ j, j < s.heap.length → j ≠ k →
        (s.heap.getD j default).inUse = true) →
      (s.compactMemory).memAvailable =
        s.memAvailable + (s.heap.getD k default).size +
          MEMORY_BLOCK_HEADER_SIZE) := by
  constructor
  · intro s k hk huse
    unfold Kernel.memFree Kernel.freeMemoryInternal
    have hpos : blockOffset s.heap k + MEMORY_BLOCK_HEADER_SIZE ≠ 0 := by
      unfold MEMORY_BLOCK_HEADER_SIZE
      omega
    rw [if_neg hpos]
    have hle : MEMORY_BLOCK_HEADER_SIZE ≤
        blockOffset s.heap k + MEMORY_BLOCK_HEADER_SIZE := by omega
    rw [if_pos hle]
    have : blockOffset s.heap k + MEMORY_BLOCK_HEADER_SIZE -
        MEMORY_BLOCK_HEADER_SIZE = blockOffset s.heap k := by omega
    rw [this, blockIndexAt_blockOffset s.heap k hk]
    dsimp only
    rw [if_neg (not_not_intro huse)]
    exact ⟨rfl, rfl, rfl, rfl, rfl, rfl, rfl⟩
  · intro s k hused hcap hk hfree hot
    have hq := heapTotal_filter_unique s.heap k hk hfree hot
    have hfle : heapTotal (s.heap.filter (·.inUse)) ≤ heapTotal s.heap := by
      omega
    have hU : KERNEL_HEAP_SIZE < U32 := by decide
    unfold Kernel.compactMemory Kernel.memAvailable
    show u32sub KERNEL_HEAP_SIZE
        (heapTotal (s.heap.filter (·.inUse)) % U32) = _
    rw [Nat.mod_eq_of_lt (by omega)]
    rw [u32sub_of_le _ _ (by omega) hU, u32sub_of_le _ _ (by omega) hU]
    have htot : (s.heap.getD k default).total =
        MEMORY_BLOCK_HEADER_SIZE + (s.heap.getD k default).size := rfl
    omega

/-- Three 100-byte allocations from boot (the §8 scenario). -/
def threeBlockState : Kernel :=
  ((((kernelInit 0 true).memAlloc 100).1.memAlloc 100).1.memAlloc 100).1

/-- The same state with the middle block freed. -/
def freedMiddleState : Kernel :=
  threeBlockState.memFree
    (blockOffset threeBlockState.heap 1 + MEMORY_BLOCK_HEADER_SIZE)

/-- Witness for `memFree_frame_and_compact`: freeing the middle of
three 100-byte blocks leaves `memAvailable` unchanged, and compaction
then reclaims exactly 100 + header bytes. -/
theorem memFree_frame_and_compact_witness :
    (threeBlockState.memFree (blockOffset threeBlockState.heap 1 +
        MEMORY_BLOCK_HEADER_SIZE)).memAvailable =
      threeBlockState.memAvailable ∧
    (freedMiddleState.compactMemory).memAvailable =
      freedMiddleState.memAvailable +
        (freedMiddleState.heap.getD 1 default).size +
        MEMORY_BLOCK_HEADER_SIZE :=
  ⟨(memFree_frame_and_compact.1 threeBlockState 1 (by decide)
      (by decide)).2.1,
   memFree_frame_and_compact.2 freedMiddleState 1 (by decide) (by decide)
     (by decide) (by decide) (by decide)⟩

/-! ## Claim C6 -/

theorem heapTotal_filter_le (l : List MemoryBlock) :
    heapTotal (l.filter (·.inUse)) ≤ heapTotal l := by
  induction l with
  | nil => simp [heapTotal]
  | cons b rest ih =>
    rw [List.filter_cons]
    by_cases h : b.inUse
    · rw [if_pos (by simpa using h), heapTotal_cons, heapTotal_cons]
      omega
    · rw [if_neg (by simpa using h), heapTotal_cons]
      omega

/-- Claim C6 (counterexample): `memAlloc(2^32 - 1)` at boot.  The C
code computes `size = (size + 3) & ~3` in 32-bit `size_t`, which wraps
`2^32 - 1` to `0` instead of rounding it up: the call *succeeds*,
returning the payload offset 16 and writing a header whose recorded
size is 0 — not a rounding-up of the request as the claim states. -/
theorem memAlloc_overflow_counterexample :
    ((kernelInit 0 true).memAlloc (U32 - 1)).2 = some 16 ∧
    (((kernelInit 0 true).memAlloc (U32 - 1)).1.heap.getD 0 default).size
      = 0 ∧
    ¬(U32 - 1 ≤
      (((kernelInit 0 true).memAlloc (U32 - 1)).1.heap.getD 0
        default).size) := by decide

/-- Full case analysis of `memAlloc` for non-wrapping requests
(`0 < size ≤ KERNEL_HEAP_SIZE` on a well-formed heap): round-up
properties, the in-place success branch, the compact-then-succeed
branch, and the still-insufficient branch. -/
theorem memAlloc_cases (s : Kernel) (size : Nat)
    (hpos : 0 < size) (hsz : size ≤ KERNEL_HEAP_SIZE)
    (hused : s.heapUsed = heapTotal s.heap)
    (hcap : heapTotal s.heap ≤ KERNEL_HEAP_SIZE)
    (hcur : s.currentTaskId < MAX_TASKS)
    (hmem : (s.tasks.getD s.currentTaskId default).memoryUsed ≤
      KERNEL_HEAP_SIZE) :
    (∀ st : Kernel, Kernel.memAlloc 0 st = (st, none)) ∧
    (size ≤ (size + 3) / 4 * 4 ∧ (size + 3) / 4 * 4 < size + 4 ∧
      (size + 3) / 4 * 4 % 4 = 0) ∧
    (s.heapUsed + MEMORY_BLOCK_HEADER_SIZE + (size + 3) / 4 * 4 ≤
        KERNEL_HEAP_SIZE →
      s.memAlloc size =
        ({ s with
           heap := s.heap ++ [⟨(size + 3) / 4 * 4,
             Int.ofNat s.currentTaskId, true, -1⟩],
           heapUsed := s.heapUsed + MEMORY_BLOCK_HEADER_SIZE +
             (size + 3) / 4 * 4,
           tasks := s.tasks.set s.currentTaskId
             { s.tasks.getD s.currentTaskId default with
               memoryUsed := (s.tasks.getD s.currentTaskId
                 default).memoryUsed + (size + 3) / 4 * 4 } },
         some (s.heapUsed + MEMORY_BLOCK_HEADER_SIZE))) ∧
    (KERNEL_HEAP_SIZE < s.heapUsed + MEMORY_BLOCK_HEADER_SIZE +
        (size + 3) / 4 * 4 →
      heapTotal (s.heap.filter (·.inUse)) + MEMORY_BLOCK_HEADER_SIZE +
        (size + 3) / 4 * 4 ≤ KERNEL_HEAP_SIZE →
      s.memAlloc size =
        ({ s with
           heap := s.heap.filter (·.inUse) ++ [⟨(size + 3) / 4 * 4,
             Int.ofNat s.currentTaskId, true, -1⟩],
           heapUsed := heapTotal (s.heap.filter (·.inUse)) +
             MEMORY_BLOCK_HEADER_SIZE + (size + 3) / 4 * 4,
           tasks := s.tasks.set s.currentTaskId
             { s.tasks.getD s.currentTaskId default with
               memoryUsed := (s.tasks.getD s.currentTaskId
                 default).memoryUsed + (size + 3) / 4 * 4 } },
         some (heapTotal (s.heap.filter (·.inUse)) +
           MEMORY_BLOCK_HEADER_SIZE))) ∧
    (KERNEL_HEAP_SIZE < s.heapUsed + MEMORY_BLOCK_HEADER_SIZE +
        (size + 3) / 4 * 4 →
      KERNEL_HEAP_SIZE < heapTotal (s.heap.filter (·.inUse)) +
        MEMORY_BLOCK_HEADER_SIZE + (size + 3) / 4 * 4 →
      s.memAlloc size = (s.compactMemory, none)) := by
  have hcapval : KERNEL_HEAP_SIZE = 524288 := rfl
  have hU : U32 = 4294967296 := rfl
  have hhdr : MEMORY_BLOCK_HEADER_SIZE = 16 := rfl
  have hszlt : size < U32 := by omega
  have f1 : size % U32 = size := Nat.mod_eq_of_lt hszlt
  have f3 : (size + 3) % U32 = size + 3 := Nat.mod_eq_of_lt (by omega)
  have hsz4 : (size + 3) / 4 * 4 ≤ KERNEL_HEAP_SIZE := by omega
  have f6 : (MEMORY_BLOCK_HEADER_SIZE + (size + 3) / 4 * 4) % U32 =
      MEMORY_BLOCK_HEADER_SIZE + (size + 3) / 4 * 4 :=
    Nat.mod_eq_of_lt (by omega)
  have hfle : heapTotal (s.heap.filter (·.inUse)) ≤ heapTotal s.heap :=
    heapTotal_filter_le s.heap
  have hguard : (0 : Int) ≤ Int.ofNat s.currentTaskId ∧
      Int.ofNat s.currentTaskId < (MAX_TASKS : Int) :=
    ⟨Int.ofNat_nonneg _, Int.ofNat_lt.mpr hcur⟩
  have htn : (Int.ofNat s.currentTaskId).toNat = s.currentTaskId := rfl
  have hchargeadd : u32add (s.tasks.getD s.currentTaskId
      default).memoryUsed ((size + 3) / 4 * 4) =
      (s.tasks.getD s.currentTaskId default).memoryUsed +
        (size + 3) / 4 * 4 := by
    unfold u32add
    exact Nat.mod_eq_of_lt (by omega)
  refine ⟨?_, by omega, ?_, ?_, ?_⟩
  · intro st
    simp [Kernel.memAlloc, Kernel.allocateMemoryInternal]
  · intro h1
    simp only [Kernel.memAlloc, Kernel.allocateMemoryInternal, f1, f3, f6]
    rw [if_neg (by omega)]
    rw [if_neg (show ¬KERNEL_HEAP_SIZE <
        (s.heapUsed + (MEMORY_BLOCK_HEADER_SIZE + (size + 3) / 4 * 4)) % U32
      by simp only [hU, hhdr, hcapval] at *; omega)]
    rw [if_neg (show ¬KERNEL_HEAP_SIZE <
        (s.heapUsed + (MEMORY_BLOCK_HEADER_SIZE + (size + 3) / 4 * 4)) % U32
      by simp only [hU, hhdr, hcapval] at *; omega)]
    rw [if_pos hguard, htn, hchargeadd]
    rw [show (s.heapUsed + (MEMORY_BLOCK_HEADER_SIZE +
        (size + 3) / 4 * 4)) % U32 = s.heapUsed +
        MEMORY_BLOCK_HEADER_SIZE + (size + 3) / 4 * 4 by simp only [hU, hhdr, hcapval] at *; omega]
  · intro h1 h2
    simp only [Kernel.memAlloc, Kernel.allocateMemoryInternal, f1, f3, f6]
    rw [if_neg (by omega)]
    rw [if_pos (show KERNEL_HEAP_SIZE <
        (s.heapUsed + (MEMORY_BLOCK_HEADER_SIZE + (size + 3) / 4 * 4)) % U32
      by simp only [hU, hhdr, hcapval] at *; omega)]
    simp only [Kernel.compactMemory]
    rw [show heapTotal (s.heap.filter (·.inUse)) % U32 =
        heapTotal (s.heap.filter (·.inUse)) by simp only [hU, hhdr, hcapval] at *; omega]
    rw [if_neg (show ¬KERNEL_HEAP_SIZE <
        (heapTotal (s.heap.filter (·.inUse)) +
          (MEMORY_BLOCK_HEADER_SIZE + (size + 3) / 4 * 4)) % U32
      by simp only [hU, hhdr, hcapval] at *; omega)]
    rw [if_pos hguard, htn, hchargeadd]
    rw [show (heapTotal (s.heap.filter (·.inUse)) +
        (MEMORY_BLOCK_HEADER_SIZE + (size + 3) / 4 * 4)) % U32 =
        heapTotal (s.heap.filter (·.inUse)) +
        MEMORY_BLOCK_HEADER_SIZE + (size + 3) / 4 * 4 by simp only [hU, hhdr, hcapval] at *; omega]
  · intro h1 h2
    simp only [Kernel.memAlloc, Kernel.allocateMemoryInternal, f1, f3, f6]
    rw [if_neg (by omega)]
    rw [if_pos (show KERNEL_HEAP_SIZE <
        (s.heapUsed + (MEMORY_BLOCK_HEADER_SIZE + (size + 3) / 4 * 4)) % U32
      by simp only [hU, hhdr, hcapval] at *; omega)]
    simp only [Kernel.compactMemory]
    rw [show heapTotal (s.heap.filter (·.inUse)) % U32 =
        heapTotal (s.heap.filter (·.inUse)) by simp only [hU, hhdr, hcapval] at *; omega]
    rw [if_pos (show KERNEL_HEAP_SIZE <
        (heapTotal (s.heap.filter (·.inUse)) +
          (MEMORY_BLOCK_HEADER_SIZE + (size + 3) / 4 * 4)) % U32
      by simp only [hU, hhdr, hcapval] at *; omega)]

/-- Claim C6 (amended): `memAlloc` returns null for `size = 0`; for
requests with `0 < size ≤ KERNEL_HEAP_SIZE` — sizes large enough to
overflow the 32-bit `size_t` arithmetic behave as the counterexample
shows — it rounds the size up to the next multiple of 4, and: when the
rounded request fits it appends a block `{size := rounded,
owner := current task, inUse := true}` at offset `used`, advances
`used` by header + rounded size, charges the rounded size to the
current task's `memoryUsed`, and returns the payload offset just past
the header; when it does not fit it compacts and retries, returning
null (with the heap compacted) if space is still insufficient. -/
theorem memAlloc_spec (s : Kernel) (size : Nat)
    (hpos : 0 < size) (hsz : size ≤ KERNEL_HEAP_SIZE)
    (hused : s.heapUsed = heapTotal s.heap)
    (hcap : heapTotal s.heap ≤ KERNEL_HEAP_SIZE)
    (hcur : s.currentTaskId < MAX_TASKS)
    (hmem : (s.tasks.getD s.currentTaskId default).memoryUsed ≤
      KERNEL_HEAP_SIZE) :
    (∀ st : Kernel, Kernel.memAlloc 0 st = (st, none)) ∧
    (size ≤ (size + 3) / 4 * 4 ∧ (size + 3) / 4 * 4 < size + 4 ∧
      (size + 3) / 4 * 4 % 4 = 0) ∧
    (s.heapUsed + MEMORY_BLOCK_HEADER_SIZE + (size + 3) / 4 * 4 ≤
        KERNEL_HEAP_SIZE →
      s.memAlloc size =
        ({ s with
           heap := s.heap ++ [⟨(size + 3) / 4 * 4,
             Int.ofNat s.currentTaskId, true, -1⟩],
           heapUsed := s.heapUsed + MEMORY_BLOCK_HEADER_SIZE +
             (size + 3) / 4 * 4,
           tasks := s.tasks.set s.currentTaskId
             { s.tasks.getD s.currentTaskId default with
               memoryUsed := (s.tasks.getD s.currentTaskId
                 default).memoryUsed + (size + 3) / 4 * 4 } },
         some (s.heapUsed + MEMORY_BLOCK_HEADER_SIZE))) ∧
    (KERNEL_HEAP_SIZE < s.heapUsed + MEMORY_BLOCK_HEADER_SIZE +
        (size + 3) / 4 * 4 →
      heapTotal (s.heap.filter (·.inUse)) + MEMORY_BLOCK_HEADER_SIZE +
        (size + 3) / 4 * 4 ≤ KERNEL_HEAP_SIZE →
      s.memAlloc size =
        ({ s with
           heap := s.heap.filter (·.inUse) ++ [⟨(size + 3) / 4 * 4,
             Int.ofNat s.currentTaskId, true, -1⟩],
           heapUsed := heapTotal (s.heap.filter (·.inUse)) +
             MEMORY_BLOCK_HEADER_SIZE + (size + 3) / 4 * 4,
           tasks := s.tasks.set s.currentTaskId
             { s.tasks.getD s.currentTaskId default with
               memoryUsed := (s.tasks.getD s.currentTaskId
                 default).memoryUsed + (size + 3) / 4 * 4 } },
         some (heapTotal (s.heap.filter (·.inUse)) +
           MEMORY_BLOCK_HEADER_SIZE))) ∧
    (KERNEL_HEAP_SIZE < s.heapUsed + MEMORY_BLOCK_HEADER_SIZE +
        (size + 3) / 4 * 4 →
      KERNEL_HEAP_SIZE < heapTotal (s.heap.filter (·.inUse)) +
        MEMORY_BLOCK_HEADER_SIZE + (size + 3) / 4 * 4 →
      s.memAlloc size = (s.compactMemory, none)) :=
  memAlloc_cases s size hpos hsz hused hcap hcur hmem

/-- Witness for `memAlloc_spec`: a 100-byte request at boot succeeds in
place, returning payload offset 16 and advancing `used` to 116. -/
theorem memAlloc_spec_witness :
    ((kernelInit 0 true).memAlloc 100).2 = some 16 ∧
    ((kernelInit 0 true).memAlloc 100).1.heapUsed = 116 := by
  have h := (memAlloc_spec (kernelInit 0 true) 100 (by decide) (by decide)
    (by decide) (by decide) (by decide) (by decide)).2.2.1 (by decide)
  rw [h]
  exact ⟨rfl, rfl⟩

/-! ## Claim C4 -/

/-- Ring-buffer well-formedness, established by `init()` and preserved
by every send/receive: a full backing array, head in range, count at
most the capacity, and the tail sitting `count` slots past the head. -/
def QueueWF (q : MessageQueue) : Prop :=
  q.messages.length = MAX_MESSAGE_QUEUE_SIZE ∧
  q.head < MAX_MESSAGE_QUEUE_SIZE ∧
  q.count ≤ MAX_MESSAGE_QUEUE_SIZE ∧
  q.tail = (q.head + q.count) % MAX_MESSAGE_QUEUE_SIZE

/-- Enqueuing at the tail appends to the mailbox viewed as a list. -/
theorem mailboxList_enqueue (q : MessageQueue) (m : Message)
    (hwf : QueueWF q) (hcount : q.count < MAX_MESSAGE_QUEUE_SIZE) :
    mailboxList
      { q with
        messages := q.messages.set q.tail m,
        tail := (q.tail + 1) % MAX_MESSAGE_QUEUE_SIZE,
        count := q.count + 1 } = mailboxList q ++ [m] := by
  obtain ⟨hlen, hhead, hcle, htail⟩ := hwf
  have h16 : MAX_MESSAGE_QUEUE_SIZE = 16 := rfl
  unfold mailboxList
  dsimp only
  rw [List.range_succ, List.map_append]
  congr 1
  · apply List.map_congr_left
    intro k hk
    have hk' : k < q.count := List.mem_range.mp hk
    apply getD_set_ne
    rw [htail]
    simp only [h16] at *
    omega
  · show [(q.messages.set q.tail m).getD
      ((q.head + q.count) % MAX_MESSAGE_QUEUE_SIZE) default] = [m]
    rw [← htail,
      getD_set_self _ _ _ _ (by rw [hlen, htail]; simp only [h16]; omega)]

/-- Dequeuing at the head pops the front of the mailbox list. -/
theorem mailboxList_dequeue (q : MessageQueue)
    (hwf : QueueWF q) (hcount : 0 < q.count) :
    mailboxList q =
      q.messages.getD q.head default ::
        mailboxList
          { q with
            messages := q.messages.set q.head
              { q.messages.getD q.head default with valid := false },
            head := (q.head + 1) % MAX_MESSAGE_QUEUE_SIZE,
            count := q.count - 1 } := by
  obtain ⟨hlen, hhead, hcle, htail⟩ := hwf
  have h16 : MAX_MESSAGE_QUEUE_SIZE = 16 := rfl
  unfold mailboxList
  dsimp only
  conv_lhs => rw [show q.count = (q.count - 1) + 1 by omega]
  rw [List.range_succ_eq_map, List.map_cons]
  congr 1
  · rw [show (q.head + 0) % MAX_MESSAGE_QUEUE_SIZE = q.head by
      simp only [h16]; omega]
  · rw [List.map_map]
    apply List.map_congr_left
    intro k hk
    have hk' : k < q.count - 1 := List.mem_range.mp hk
    show q.messages.getD ((q.head + Nat.succ k) % MAX_MESSAGE_QUEUE_SIZE)
        default = _
    have hidx : ((q.head + 1) % MAX_MESSAGE_QUEUE_SIZE + k) %
        MAX_MESSAGE_QUEUE_SIZE =
        (q.head + Nat.succ k) % MAX_MESSAGE_QUEUE_SIZE := by
      simp only [h16]
      omega
    rw [hidx, getD_set_ne _ _ _ _ _ (by simp only [h16] at *; omega)]

/-- A successful `ipcSend` writes the stamped message at the tail and
bumps `tail`/`count` of the destination mailbox. -/
theorem ipcSend_success (s : Kernel) (toT : Nat) (buf : List Nat)
    (now : Nat)
    (ht8 : toT < MAX_TASKS)
    (hlive : (s.tasks.getD toT default).state ≠ KTaskState.empty)
    (hlen : buf.length ≤ 64)
    (hcount : (s.queues.getD toT default).count < MAX_MESSAGE_QUEUE_SIZE) :
    s.ipcSend (Int.ofNat toT) (some buf) buf.length now =
      ({ s with
         queues := s.queues.set toT
           { s.queues.getD toT default with
             messages := (s.queues.getD toT default).messages.set
               (s.queues.getD toT default).tail
               ⟨Int.ofNat s.currentTaskId, Int.ofNat toT, buf, buf.length,
                now, true⟩,
             tail := ((s.queues.getD toT default).tail + 1) %
               MAX_MESSAGE_QUEUE_SIZE,
             count := (s.queues.getD toT default).count + 1 } },
       SYS_OK) := by
  unfold Kernel.ipcSend
  rw [if_neg (show ¬(Int.ofNat toT < 0 ∨
      (MAX_TASKS : Int) ≤ Int.ofNat toT) by
    push_neg
    exact ⟨Int.ofNat_nonneg _, Int.ofNat_lt.mpr ht8⟩)]
  rw [show (Int.ofNat toT).toNat = toT from rfl]
  rw [if_neg hlive, if_neg (not_lt.mpr hlen),
    if_neg (show ¬((some buf : Option (List Nat)) = none ∧
      0 < buf.length) by simp),
    if_neg (not_le.mpr hcount)]
  rw [show ((some buf : Option (List Nat)).getD []).take buf.length = buf
    from List.take_length buf]

/-- A successful `ipcReceive` returns the head message's length, bytes
and sender, invalidates the slot and advances `head`. -/
theorem ipcReceive_success (s : Kernel) (max : Nat)
    (hcount : (s.queues.getD s.currentTaskId default).count ≠ 0)
    (hvalid : ((s.queues.getD s.currentTaskId default).messages.getD
      (s.queues.getD s.currentTaskId default).head default).valid = true)
    (hmax : ((s.queues.getD s.currentTaskId default).messages.getD
      (s.queues.getD s.currentTaskId default).head default).length ≤ max) :
    s.ipcReceive max =
      ({ s with
         queues := s.queues.set s.currentTaskId
           { s.queues.getD s.currentTaskId default with
             messages := (s.queues.getD s.currentTaskId
               default).messages.set
               (s.queues.getD s.currentTaskId default).head
               { (s.queues.getD s.currentTaskId default).messages.getD
                   (s.queues.getD s.currentTaskId default).head default with
                 valid := false },
             head := ((s.queues.getD s.currentTaskId default).head + 1) %
               MAX_MESSAGE_QUEUE_SIZE,
             count := (s.queues.getD s.currentTaskId default).count - 1 } },
       ⟨Int.ofNat ((s.queues.getD s.currentTaskId default).messages.getD
           (s.queues.getD s.currentTaskId default).head default).length,
        some (((s.queues.getD s.currentTaskId default).messages.getD
           (s.queues.getD s.currentTaskId default).head
           default).data.take
          ((s.queues.getD s.currentTaskId default).messages.getD
           (s.queues.getD s.currentTaskId default).head default).length),
        some ((s.queues.getD s.currentTaskId default).messages.getD
           (s.queues.getD s.currentTaskId default).head
           default).fromTaskId⟩) := by
  unfold Kernel.ipcReceive
  rw [if_neg hcount, if_neg (not_not_intro hvalid),
    if_neg (not_lt.mpr hmax)]

/-- Claim C4: (i) a successful `ipcSend` to a live task appends the
message — stamped with the sender (the current task), the payload bytes
and their length — at the back of the destination mailbox, leaving
every other mailbox, the task table and the current task unchanged;
(ii) a successful `ipcReceive` removes exactly the front message of the
current task's mailbox and returns its length, its bytes and its
sender, so messages to a single recipient are received in send (FIFO)
order; (iii) in particular a send to an empty mailbox followed by a
receive while the destination is the current task returns the sent
length, the exact sent bytes, and the sender's id. -/
theorem ipc_fifo_roundtrip :
    (∀ (s : Kernel) (toT : Nat) (buf : List Nat) (now : Nat),
      toT < MAX_TASKS →
      s.queues.length = MAX_TASKS →
      QueueWF (s.queues.getD toT default) →
      (s.tasks.getD toT default).state ≠ KTaskState.empty →
      buf.length ≤ 64 →
      (s.queues.getD toT default).count < MAX_MESSAGE_QUEUE_SIZE →
      (s.ipcSend (Int.ofNat toT) (some buf) buf.length now).2 = SYS_OK ∧
      mailboxList ((s.ipcSend (Int.ofNat toT) (some buf) buf.length
          now).1.queues.getD toT default) =
        mailboxList (s.queues.getD toT default) ++
          [⟨Int.ofNat s.currentTaskId, Int.ofNat toT, buf, buf.length, now,
            true⟩] ∧
      QueueWF ((s.ipcSend (Int.ofNat toT) (some buf) buf.length
          now).1.queues.getD toT default) ∧
      (∀ j, j ≠ toT →
        (s.ipcSend (Int.ofNat toT) (some buf) buf.length
          now).1.queues.getD j default = s.queues.getD j default) ∧
      (s.ipcSend (Int.ofNat toT) (some buf) buf.length now).1.tasks =
        s.tasks ∧
      (s.ipcSend (Int.ofNat toT) (some buf) buf.length
        now).1.currentTaskId = s.currentTaskId) ∧
    (∀ (s : Kernel) (max : Nat),
      s.currentTaskId < MAX_TASKS →
      s.queues.length = MAX_TASKS →
      QueueWF (s.queues.getD s.currentTaskId default) →
      (s.queues.getD s.currentTaskId default).count ≠ 0 →
      ((s.queues.getD s.currentTaskId default).messages.getD
        (s.queues.getD s.currentTaskId default).head default).valid =
          true →
      ((s.queues.getD s.currentTaskId default).messages.getD
        (s.queues.getD s.currentTaskId default).head default).length ≤
          max →
      (s.ipcReceive max).2 =
        ⟨Int.ofNat ((s.queues.getD s.currentTaskId default).messages.getD
            (s.queues.getD s.currentTaskId default).head default).length,
         some (((s.queues.getD s.currentTaskId default).messages.getD
            (s.queues.getD s.currentTaskId default).head
            default).data.take
           ((s.queues.getD s.currentTaskId default).messages.getD
            (s.queues.getD s.currentTaskId default).head default).length),
         some ((s.queues.getD s.currentTaskId default).messages.getD
            (s.queues.getD s.currentTaskId default).head
            default).fromTaskId⟩ ∧
      mailboxList (s.queues.getD s.currentTaskId default) =
        (s.queues.getD s.currentTaskId default).messages.getD
            (s.queues.getD s.currentTaskId default).head default ::
          mailboxList ((s.ipcReceive max).1.queues.getD s.currentTaskId
            default) ∧
      QueueWF ((s.ipcReceive max).1.queues.getD s.currentTaskId default) ∧
      (∀ j, j ≠ s.currentTaskId →
        (s.ipcReceive max).1.queues.getD j default =
          s.queues.getD j default) ∧
      (s.ipcReceive max).1.tasks = s.tasks ∧
      (s.ipcReceive max).1.currentTaskId = s.currentTaskId) ∧
    (∀ (s : Kernel) (toT : Nat) (buf : List Nat) (now max : Nat),
      toT < MAX_TASKS →
      s.queues.length = MAX_TASKS →
      QueueWF (s.queues.getD toT default) →
      (s.tasks.getD toT default).state ≠ KTaskState.empty →
      buf.length ≤ 64 →
      (s.queues.getD toT default).count = 0 →
      buf.length ≤ max →
      (({ (s.ipcSend (Int.ofNat toT) (some buf) buf.length now).1 with
          currentTaskId := toT } : Kernel).ipcReceive max).2 =
        ⟨Int.ofNat buf.length, some buf,
         some (Int.ofNat s.currentTaskId)⟩) := by
  have h16 : MAX_MESSAGE_QUEUE_SIZE = 16 := rfl
  refine ⟨?_, ?_, ?_⟩
  · intro s toT buf now ht8 hqlen hwf hlive hlen hcount
    rw [ipcSend_success s toT buf now ht8 hlive hlen hcount]
    dsimp only
    have hget := getD_set_self s.queues toT
      { s.queues.getD toT default with
        messages := (s.queues.getD toT default).messages.set
          (s.queues.getD toT default).tail
          ⟨Int.ofNat s.currentTaskId, Int.ofNat toT, buf, buf.length,
           now, true⟩,
        tail := ((s.queues.getD toT default).tail + 1) %
          MAX_MESSAGE_QUEUE_SIZE,
        count := (s.queues.getD toT default).count + 1 }
      default (by omega)
    rw [hget]
    obtain ⟨hl, hh, hc, ht⟩ := hwf
    refine ⟨rfl, ?_, ?_, ?_, rfl, rfl⟩
    · exact mailboxList_enqueue _ _ ⟨hl, hh, hc, ht⟩ hcount
    · refine ⟨by simpa using hl, hh, ?_, ?_⟩
      · show (s.queues.getD toT default).count + 1 ≤ MAX_MESSAGE_QUEUE_SIZE
        simp only [h16] at *
        omega
      · show ((s.queues.getD toT default).tail + 1) %
          MAX_MESSAGE_QUEUE_SIZE = _
        rw [ht]
        simp only [h16] at *
        omega
    · intro j hj
      exact getD_set_ne _ _ _ _ _ (fun h => hj h.symm)
  · intro s max hcur8 hqlen hwf hcount hvalid hmax
    rw [ipcReceive_success s max hcount hvalid hmax]
    dsimp only
    have hget := getD_set_self s.queues s.currentTaskId
      { s.queues.getD s.currentTaskId default with
        messages := (s.queues.getD s.currentTaskId default).messages.set
          (s.queues.getD s.currentTaskId default).head
          { (s.queues.getD s.currentTaskId default).messages.getD
              (s.queues.getD s.currentTaskId default).head default with
            valid := false },
        head := ((s.queues.getD s.currentTaskId default).head + 1) %
          MAX_MESSAGE_QUEUE_SIZE,
        count := (s.queues.getD s.currentTaskId default).count - 1 }
      default (by omega)
    rw [hget]
    obtain ⟨hl, hh, hc, ht⟩ := hwf
    refine ⟨rfl, ?_, ?_, ?_, rfl, rfl⟩
    · exact mailboxList_dequeue _ ⟨hl, hh, hc, ht⟩ (by omega)
    · refine ⟨by simpa using hl, ?_, ?_, ?_⟩
      · show ((s.queues.getD s.currentTaskId default).head + 1) %
          MAX_MESSAGE_QUEUE_SIZE < MAX_MESSAGE_QUEUE_SIZE
        simp only [h16] at *
        omega
      · show (s.queues.getD s.currentTaskId default).count - 1 ≤
          MAX_MESSAGE_QUEUE_SIZE
        simp only [h16] at *
        omega
      · show (s.queues.getD s.currentTaskId default).tail = _
        rw [ht]
        simp only [h16] at *
        omega
    · intro j hj
      exact getD_set_ne _ _ _ _ _ (fun h => hj h.symm)
  · intro s toT buf now max ht8 hqlen hwf hlive hlen hempty hmax
    rw [ipcSend_success s toT buf now ht8 hlive hlen (by omega)]
    dsimp only
    obtain ⟨hl, hh, hc, ht⟩ := hwf
    have htl : (s.queues.getD toT default).tail =
        (s.queues.getD toT default).head := by
      rw [ht, hempty]
      simp only [h16] at *
      omega
    set msg : Message := ⟨Int.ofNat s.currentTaskId, Int.ofNat toT, buf,
      buf.length, now, true⟩ with hmsg
    set q2 : MessageQueue :=
      { s.queues.getD toT default with
        messages := (s.queues.getD toT default).messages.set
          (s.queues.getD toT default).tail msg,
        tail := ((s.queues.getD toT default).tail + 1) %
          MAX_MESSAGE_QUEUE_SIZE,
        count := (s.queues.getD toT default).count + 1 } with hq2
    set s2 : Kernel :=
      { s with queues := s.queues.set toT q2, currentTaskId := toT }
      with hs2
    have hgetq : s2.queues.getD s2.currentTaskId default = q2 := by
      rw [hs2]
      exact getD_set_self s.queues toT q2 default (by omega)
    have hmsgat : q2.messages.getD q2.head default = msg := by
      rw [hq2]
      show ((s.queues.getD toT default).messages.set
        (s.queues.getD toT default).tail msg).getD
        (s.queues.getD toT default).head default = msg
      rw [← htl]
      exact getD_set_self _ _ _ _ (by
        rw [hl, ht, hempty]
        simp only [h16]
        omega)
    have hrecv := ipcReceive_success s2 max
      (by rw [hgetq, hq2]; simp [hempty])
      (by rw [hgetq, hmsgat])
      (by rw [hgetq, hmsgat]; simpa using hmax)
    rw [hrecv]
    dsimp only
    rw [hgetq, hmsgat]
    rw [show msg.length = buf.length from rfl,
      show msg.data = buf from rfl,
      show msg.fromTaskId = Int.ofNat s.currentTaskId from rfl,
      List.take_length]

/-- Witness for `ipc_fifo_roundtrip`: task 1 is created at boot, a
two-byte message is sent to it successfully, and receiving as task 1
returns length 2, the same bytes and sender 0. -/
theorem ipc_fifo_roundtrip_witness :
    ((((kernelInit 0 true).createTask "app" true 0).1.ipcSend
        (Int.ofNat 1) (some [1, 2]) 2 5).2 = SYS_OK) ∧
    (({ (((kernelInit 0 true).createTask "app" true 0).1.ipcSend
          (Int.ofNat 1) (some [1, 2]) 2 5).1 with
        currentTaskId := 1 } : Kernel).ipcReceive 64).2 =
      ⟨2, some [1, 2], some 0⟩ := by
  constructor
  · exact (ipc_fifo_roundtrip.1 (((kernelInit 0 true).createTask "app"
      true 0).1) 1 [1, 2] 5 (by decide) (by decide)
      ⟨by decide, by decide, by decide, by decide⟩ (by decide) (by decide)
      (by decide)).1
  · exact ipc_fifo_roundtrip.2.2 (((kernelInit 0 true).createTask "app"
      true 0).1) 1 [1, 2] 5 64 (by decide) (by decide)
      ⟨by decide, by decide, by decide, by decide⟩ (by decide) (by decide)
      (by decide) (by decide)

/-! ## Claim C2 -/

/-- The five calls the ownership-accounting claim ranges over. -/
inductive MemOp where
  | create (name : String) (hasEntry : Bool) (now : Nat)
  | kill (taskId : Int)
  | alloc (size : Nat)
  | free (ptr : Nat)
  | compact
deriving DecidableEq, Repr

def applyMemOp (s : Kernel) : MemOp → Kernel
  | .create n e now => (s.createTask n e now).1
  | .kill t => s.killTask t
  | .alloc size => (s.memAlloc size).1
  | .free ptr => s.memFree ptr
  | .compact => s.memCompact

def runMemOps (s : Kernel) (ops : List MemOp) : Kernel :=
  ops.foldl applyMemOp s

/-- Sum of `memoryUsed` over all task slots. -/
def memSum (s : Kernel) : Nat :=
  (s.tasks.map KTask.memoryUsed).sum

/-- Allocation requests small enough that the 32-bit `size_t`
arithmetic in the allocator cannot wrap (the amendment forced by the
overflow counterexample). -/
def SizeOK : MemOp → Prop
  | .alloc size => size ≤ KERNEL_HEAP_SIZE
  | _ => True

theorem liveSum_append (l1 l2 : List MemoryBlock) :
    liveSum (l1 ++ l2) = liveSum l1 + liveSum l2 := by
  simp [liveSum, List.filter_append]

theorem liveSum_filter (l : List MemoryBlock) :
    liveSum (l.filter (·.inUse)) = liveSum l := by
  induction l with
  | nil => rfl
  | cons b rest ih =>
    rw [List.filter_cons]
    by_cases h : b.inUse
    · rw [if_pos (by simpa using h), liveSum_cons, liveSum_cons, ih]
    · rw [if_neg (by simpa using h), liveSum_cons, if_neg h, ih]
      omega

theorem liveSum_le_heapTotal (l : List MemoryBlock) :
    liveSum l ≤ heapTotal l := by
  induction l with
  | nil => exact le_refl 0
  | cons b rest ih =>
    rw [liveSum_cons, heapTotal_cons]
    have : (if b.inUse then b.size else 0) ≤ b.total := by
      show _ ≤ MEMORY_BLOCK_HEADER_SIZE + b.size
      split <;> omega
    omega

theorem blockIndexAt_lt_length :
    ∀ (l : List MemoryBlock) (off k : Nat),
      blockIndexAt l off = some k → k < l.length := by
  intro l
  induction l with
  | nil => intro off k h; exact absurd h (by simp [blockIndexAt])
  | cons b rest ih =>
    intro off k h
    unfold blockIndexAt at h
    by_cases h0 : off = 0
    · rw [if_pos h0] at h
      cases h
      simp
    · rw [if_neg h0] at h
      by_cases h1 : off < b.total
      · rw [if_pos h1] at h; exact absurd h (by simp)
      · rw [if_neg h1] at h
        obtain ⟨k', hk', rfl⟩ := Option.map_eq_some'.mp h
        have := ih _ _ hk'
        simp only [List.length_cons]
        omega

theorem heapTotal_set_free (l : List MemoryBlock) :
    ∀ (k : Nat), k < l.length →
      heapTotal (l.set k { l.getD k default with inUse := false }) =
        heapTotal l := by
  induction l with
  | nil => intro k hk; exact absurd hk (by simp)
  | cons b rest ih =>
    intro k hk
    cases k with
    | zero =>
      show heapTotal ({ b with inUse := false } :: rest) = _
      rw [heapTotal_cons, heapTotal_cons]
      rfl
    | succ k =>
      show heapTotal
        (b :: rest.set k { rest.getD k default with inUse := false }) =
        heapTotal (b :: rest)
      rw [heapTotal_cons, heapTotal_cons, ih k (by simpa using hk)]

theorem liveSum_set_free (l : List MemoryBlock) :
    ∀ (k : Nat), k < l.length → (l.getD k default).inUse = true →
      liveSum (l.set k { l.getD k default with inUse := false }) +
        (l.getD k default).size = liveSum l := by
  induction l with
  | nil => intro k hk; exact absurd hk (by simp)
  | cons b rest ih =>
    intro k hk huse
    cases k with
    | zero =>
      show liveSum ({ b with inUse := false } :: rest) + b.size = _
      rw [liveSum_cons, liveSum_cons]
      have hb : b.inUse = true := huse
      rw [if_pos hb]
      show 0 + liveSum rest + b.size = b.size + liveSum rest
      omega
    | succ k =>
      show liveSum
        (b :: rest.set k { rest.getD k default with inUse := false }) +
        (rest.getD k default).size = liveSum (b :: rest)
      rw [liveSum_cons, liveSum_cons]
      have := ih k (by simpa using hk) huse
      omega

theorem getD_size_le_liveSum (l : List MemoryBlock) :
    ∀ (k : Nat), k < l.length → (l.getD k default).inUse = true →
      (l.getD k default).size ≤ liveSum l := by
  induction l with
  | nil => intro k hk; exact absurd hk (by simp)
  | cons b rest ih =>
    intro k hk huse
    cases k with
    | zero =>
      show b.size ≤ _
      rw [liveSum_cons, if_pos (show b.inUse from huse)]
      omega
    | succ k =>
      show (rest.getD k default).size ≤ _
      rw [liveSum_cons]
      have := ih k (by simpa using hk) huse
      omega

theorem getD_replicate {α : Type} :
    ∀ (n j : Nat) (a d : α),
      (List.replicate n a).getD j d = if j < n then a else d := by
  intro n
  induction n with
  | zero => intro j a d; simp
  | succ n ih =>
    intro j a d
    cases j with
    | zero => simp [List.replicate]
    | succ j =>
      show (List.replicate n a).getD j d = _
      rw [ih j a d]
      by_cases h : j < n
      · rw [if_pos h, if_pos (by omega)]
      · rw [if_neg h, if_neg (by omega)]

theorem sum_map_memoryUsed (l : List KTask) (h0 : 0 < l.length)
    (hz : ∀ i, 1 ≤ i → (l.getD i default).memoryUsed = 0) :
    (l.map KTask.memoryUsed).sum = (l.getD 0 default).memoryUsed := by
  cases l with
  | nil => exact absurd h0 (by simp)
  | cons t rest =>
    show (t.memoryUsed :: rest.map KTask.memoryUsed).sum = t.memoryUsed
    rw [List.sum_cons]
    have : (rest.map KTask.memoryUsed).sum = 0 := by
      apply List.sum_eq_zero
      intro x hx
      obtain ⟨a, ha, rfl⟩ := List.mem_map.mp hx
      obtain ⟨⟨j, hj⟩, rfl⟩ := List.mem_iff_get.mp ha
      have hgd : rest.getD j default = rest.get ⟨j, hj⟩ := by
        show (rest.get? j).getD default = _
        rw [List.get?_eq_get hj]
        rfl
      rw [← hgd]
      exact hz (j + 1) (by omega)
    omega

/-- Inductive invariant for the ownership-accounting claim: over the
five claimed calls the current task never changes from the idle slot,
every block is owned by slot 0, the watermark matches the block layout
and stays within the heap, slot 0's accounting equals the live bytes,
and every other slot's accounting is zero. -/
structure MemInv (s : Kernel) : Prop where
  current0 : s.currentTaskId = 0
  tlen : s.tasks.length = MAX_TASKS
  owners : ∀ b ∈ s.heap, b.ownerTaskId = 0
  husd : s.heapUsed = heapTotal s.heap
  hcap : heapTotal s.heap ≤ KERNEL_HEAP_SIZE
  acct : (s.tasks.getD 0 default).memoryUsed = liveSum s.heap
  rest : ∀ i, 1 ≤ i → (s.tasks.getD i default).memoryUsed = 0

theorem createTask_memInv (s : Kernel) (n : String) (e : Bool)
    (now : Nat) (h : MemInv s) : MemInv (s.createTask n e now).1 := by
  unfold Kernel.createTask
  cases halloc : allocateTaskId s.tasks with
  | none => exact h
  | some i =>
    have hi := allocateTaskId_bounds s.tasks i halloc
    dsimp only
    refine ⟨h.current0, by simpa using h.tlen, h.owners, h.husd, h.hcap,
      ?_, ?_⟩
    · rw [getD_set_ne _ _ _ _ _ (by omega)]
      exact h.acct
    · intro j hj
      by_cases hji : j = i
      · subst hji
        rw [getD_set_self _ _ _ _ (by rw [h.tlen]; omega)]
      · rw [getD_set_ne _ _ _ _ _ (fun hh => hji hh.symm)]
        exact h.rest j hj

theorem killTask_memInv (s : Kernel) (t : Int) (h : MemInv s) :
    MemInv (s.killTask t) := by
  unfold Kernel.killTask
  split
  · exact h
  next hguard =>
    push_neg at hguard
    dsimp only
    split
    · exact h
    · obtain ⟨hg1, hg2, hg3⟩ := hguard
      have hti : 1 ≤ t.toNat ∧ t.toNat < MAX_TASKS := by
        have hM : (MAX_TASKS : Int) = 8 := rfl
        rw [hM] at hg2
        omega
      refine ⟨h.current0, by simpa using h.tlen, h.owners, h.husd,
        h.hcap, ?_, ?_⟩
      · rw [getD_set_ne _ _ _ _ _ (by omega)]
        exact h.acct
      · intro j hj
        by_cases hji : j = t.toNat
        · subst hji
          rw [getD_set_self _ _ _ _ (by rw [h.tlen]; omega)]
          exact h.rest _ hj
        · rw [getD_set_ne _ _ _ _ _ (fun hh => hji hh.symm)]
          exact h.rest j hj

theorem memCompact_memInv (s : Kernel) (h : MemInv s) :
    MemInv s.memCompact := by
  have hfle := heapTotal_filter_le s.heap
  have hcap := h.hcap
  have hc1 : KERNEL_HEAP_SIZE = 524288 := rfl
  have hc2 : U32 = 4294967296 := rfl
  refine ⟨h.current0, h.tlen, ?_, ?_, ?_, ?_, h.rest⟩
  · intro b hb
    exact h.owners b (List.mem_of_mem_filter hb)
  · show heapTotal (s.heap.filter (·.inUse)) % U32 =
      heapTotal (s.heap.filter (·.inUse))
    rw [Nat.mod_eq_of_lt (by omega)]
  · show heapTotal (s.heap.filter (·.inUse)) ≤ KERNEL_HEAP_SIZE
    omega
  · show (s.tasks.getD 0 default).memoryUsed =
      liveSum (s.heap.filter (·.inUse))
    rw [liveSum_filter]
    exact h.acct

theorem memFree_memInv (s : Kernel) (ptr : Nat) (h : MemInv s) :
    MemInv (s.memFree ptr) := by
  unfold Kernel.memFree Kernel.freeMemoryInternal
  split
  · exact h
  · cases hidx : (if MEMORY_BLOCK_HEADER_SIZE ≤ ptr then
        blockIndexAt s.heap (ptr - MEMORY_BLOCK_HEADER_SIZE)
      else none) with
    | none => exact h
    | some k =>
      dsimp only
      have hk : k < s.heap.length := by
        by_cases hle : MEMORY_BLOCK_HEADER_SIZE ≤ ptr
        · rw [if_pos hle] at hidx
          exact blockIndexAt_lt_length _ _ _ hidx
        · rw [if_neg hle] at hidx
          exact absurd hidx (by simp)
      by_cases huse : (s.heap.getD k default).inUse = true
      · rw [if_neg (not_not_intro huse)]
        have hb0 : (s.heap.getD k default).ownerTaskId = 0 := by
          rcases getD_mem_or_eq s.heap k default with hm | hm
          · exact h.owners _ hm
          · rw [hm] at huse
            exact absurd huse (by decide)
        rw [if_pos (show 0 ≤ (s.heap.getD k default).ownerTaskId ∧
            (s.heap.getD k default).ownerTaskId < (MAX_TASKS : Int)
          from by rw [hb0]; exact ⟨le_refl 0, by decide⟩)]
        rw [show ((s.heap.getD k default).ownerTaskId).toNat = 0
          from by rw [hb0]; rfl]
        have hszle := getD_size_le_liveSum s.heap k hk huse
        have hc1 : KERNEL_HEAP_SIZE = 524288 := rfl
        have hc2 : U32 = 4294967296 := rfl
        have hlive := liveSum_le_heapTotal s.heap
        have hcap := h.hcap
        have hsub : u32sub (s.tasks.getD 0 default).memoryUsed
            (s.heap.getD k default).size =
            (s.tasks.getD 0 default).memoryUsed -
              (s.heap.getD k default).size := by
          apply u32sub_of_le
          · rw [h.acct]; exact hszle
          · rw [h.acct]; omega
        have hht : heapTotal (s.heap.set k
            { size := (s.heap.getD k default).size,
              ownerTaskId := (s.heap.getD k default).ownerTaskId,
              inUse := false,
              handleId := (s.heap.getD k default).handleId }) =
            heapTotal s.heap := heapTotal_set_free s.heap k hk
        have hlv : liveSum (s.heap.set k
            { size := (s.heap.getD k default).size,
              ownerTaskId := (s.heap.getD k default).ownerTaskId,
              inUse := false,
              handleId := (s.heap.getD k default).handleId }) +
            (s.heap.getD k default).size =
            liveSum s.heap := liveSum_set_free s.heap k hk huse
        refine ⟨h.current0, by simpa using h.tlen, ?_, ?_, ?_, ?_, ?_⟩
        · intro b hb
          rcases List.mem_or_eq_of_mem_set hb with hm | hm
          · exact h.owners b hm
          · rw [hm]
            exact hb0
        · dsimp only
          rw [hht]
          exact h.husd
        · dsimp only
          rw [hht]
          exact h.hcap
        · dsimp only
          rw [getD_set_self _ _ _ _ (by rw [h.tlen]; decide)]
          show u32sub (s.tasks.getD 0 default).memoryUsed
            (s.heap.getD k default).size = _
          rw [hsub, h.acct]
          omega
        · intro j hj
          dsimp only
          rw [getD_set_ne _ _ _ _ _ (by omega)]
          exact h.rest j hj
      · rw [if_pos huse]
        exact h

theorem memAlloc_memInv (s : Kernel) (size : Nat)
    (hsz : size ≤ KERNEL_HEAP_SIZE) (h : MemInv s) :
    MemInv (s.memAlloc size).1 := by
  have hcur : s.currentTaskId < MAX_TASKS := by
    rw [h.current0]; decide
  have hmem : (s.tasks.getD s.currentTaskId default).memoryUsed ≤
      KERNEL_HEAP_SIZE := by
    rw [h.current0, h.acct]
    exact le_trans (liveSum_le_heapTotal _) h.hcap
  by_cases hz : size = 0
  · subst hz
    have hc := memAlloc_cases s 1 (by decide) (by decide) h.husd
      h.hcap hcur hmem
    rw [show s.memAlloc 0 = (s, none) from hc.1 s]
    exact h
  · have hpos : 0 < size := Nat.pos_of_ne_zero hz
    have hc := memAlloc_cases s size hpos hsz h.husd h.hcap hcur hmem
    have hc1 : KERNEL_HEAP_SIZE = 524288 := rfl
    have hhdr : MEMORY_BLOCK_HEADER_SIZE = 16 := rfl
    have hfle := heapTotal_filter_le s.heap
    have hused := h.husd
    have hcap := h.hcap
    by_cases h1 : s.heapUsed + MEMORY_BLOCK_HEADER_SIZE +
        (size + 3) / 4 * 4 ≤ KERNEL_HEAP_SIZE
    · rw [hc.2.2.1 h1]
      dsimp only
      rw [h.current0]
      have hone : heapTotal [(⟨(size + 3) / 4 * 4, Int.ofNat 0,
          true, -1⟩ : MemoryBlock)] =
          MEMORY_BLOCK_HEADER_SIZE + (size + 3) / 4 * 4 := by
        simp [heapTotal, MemoryBlock.total]
      have hlone : liveSum [(⟨(size + 3) / 4 * 4, Int.ofNat 0,
          true, -1⟩ : MemoryBlock)] = (size + 3) / 4 * 4 := by
        simp [liveSum]
      refine ⟨rfl, by simpa using h.tlen, ?_, ?_, ?_, ?_, ?_⟩
      · intro b hb
        rcases List.mem_append.mp hb with hm | hm
        · exact h.owners b hm
        · rw [List.mem_singleton.mp hm]
          rfl
      · dsimp only
        rw [heapTotal_append, hone]
        omega
      · dsimp only
        rw [heapTotal_append, hone]
        omega
      · dsimp only
        rw [getD_set_self _ _ _ _ (by rw [h.tlen]; decide)]
        dsimp only
        rw [liveSum_append, hlone, h.acct]
      · intro j hj
        dsimp only
        rw [getD_set_ne _ _ _ _ _ (by omega)]
        exact h.rest j hj
    · by_cases h2 : heapTotal (s.heap.filter (·.inUse)) +
          MEMORY_BLOCK_HEADER_SIZE + (size + 3) / 4 * 4 ≤
          KERNEL_HEAP_SIZE
      · rw [hc.2.2.2.1 (by omega) h2]
        dsimp only
        rw [h.current0]
        have hone : heapTotal [(⟨(size + 3) / 4 * 4, Int.ofNat 0,
            true, -1⟩ : MemoryBlock)] =
            MEMORY_BLOCK_HEADER_SIZE + (size + 3) / 4 * 4 := by
          simp [heapTotal, MemoryBlock.total]
        have hlone : liveSum [(⟨(size + 3) / 4 * 4, Int.ofNat 0,
            true, -1⟩ : MemoryBlock)] = (size + 3) / 4 * 4 := by
          simp [liveSum]
        refine ⟨rfl, by simpa using h.tlen, ?_, ?_, ?_, ?_, ?_⟩
        · intro b hb
          rcases List.mem_append.mp hb with hm | hm
          · exact h.owners b (List.mem_of_mem_filter hm)
          · rw [List.mem_singleton.mp hm]
            rfl
        · dsimp only
          rw [heapTotal_append, hone]
          omega
        · dsimp only
          rw [heapTotal_append, hone]
          omega
        · dsimp only
          rw [getD_set_self _ _ _ _ (by rw [h.tlen]; decide)]
          dsimp only
          rw [liveSum_append, hlone, liveSum_filter, h.acct]
        · intro j hj
          dsimp only
          rw [getD_set_ne _ _ _ _ _ (by omega)]
          exact h.rest j hj
      · rw [hc.2.2.2.2 (by omega) (by omega)]
        exact memCompact_memInv s h

theorem kernelInit_memInv (now : Nat) (sdOk : Bool) :
    MemInv (kernelInit now sdOk) := by
  refine ⟨rfl, ?_, ?_, rfl, ?_, rfl, ?_⟩
  · rfl
  · intro b hb
    exact absurd hb (by simp [kernelInit])
  · show heapTotal ([] : List MemoryBlock) ≤ KERNEL_HEAP_SIZE
    decide
  · intro i hi
    cases i with
    | zero => exact absurd hi (by omega)
    | succ j =>
      show ((List.replicate (MAX_TASKS - 1) KTask.zeroed).getD j
        default).memoryUsed = 0
      rw [getD_replicate]
      split <;> rfl

theorem memInv_step (s : Kernel) (op : MemOp) (hop : SizeOK op)
    (h : MemInv s) : MemInv (applyMemOp s op) := by
  cases op with
  | create n e now2 => exact createTask_memInv s n e now2 h
  | kill t => exact killTask_memInv s t h
  | alloc sz => exact memAlloc_memInv s sz hop h
  | free p => exact memFree_memInv s p h
  | compact => exact memCompact_memInv s h

theorem memInv_run :
    ∀ (ops : List MemOp) (s : Kernel), (∀ op ∈ ops, SizeOK op) →
      MemInv s → MemInv (runMemOps s ops) := by
  intro ops
  induction ops with
  | nil => exact fun s _ hs => hs
  | cons op rest ih =>
    intro s hl hs
    exact ih (applyMemOp s op)
      (fun o ho => hl o (List.mem_cons_of_mem _ ho))
      (memInv_step s op (hl op (List.mem_cons_self _ _)) hs)

/-- The ownership-accounting equation on the block-layout abstraction:
starting from boot, after every sequence of `createTask`, `killTask`,
`memAlloc`, `memFree` and `memCompact` calls in which each allocation
request is at most `KERNEL_HEAP_SIZE`, the sum over all task slots of
`memoryUsed` equals the sum of `block.size` over the heap blocks with
`inUse = true`.  This is a property of the abstraction, not of the
program: the abstraction maps every free at a non-boundary offset to
the invalid-free no-op, and exactly that gap is where the machine
falsifies the equation (`memory_accounting_stale_free`); requests
near `2^32` falsify it already on the abstraction
(`memory_accounting_wrap`). -/
theorem memory_accounting (now : Nat) (sdOk : Bool) (ops : List MemOp)
    (hok : ∀ op ∈ ops, SizeOK op) :
    memSum (runMemOps (kernelInit now sdOk) ops) =
      liveSum (runMemOps (kernelInit now sdOk) ops).heap := by
  have hinv := memInv_run ops (kernelInit now sdOk) hok
    (kernelInit_memInv now sdOk)
  unfold memSum
  rw [sum_map_memoryUsed _ (by rw [hinv.tlen]; decide) hinv.rest,
    hinv.acct]

/-- A second failure mode of the accounting equation, visible already
on the block-layout abstraction: two `memAlloc (2^32 - 5)` calls from
boot.  The rounded size `2^32 - 4` makes `totalNeeded = 16 + size`
wrap to 12 in 32-bit `size_t`, so both allocations are admitted;
slot 0's `memoryUsed` wraps to `2^32 - 8` while the live payload sum
is `2 * (2^32 - 4)`. -/
theorem memory_accounting_wrap :
    memSum (runMemOps (kernelInit 0 true)
        [MemOp.alloc (U32 - 5), MemOp.alloc (U32 - 5)]) ≠
      liveSum (runMemOps (kernelInit 0 true)
        [MemOp.alloc (U32 - 5), MemOp.alloc (U32 - 5)]).heap := by
  decide

/-- Witness for `memory_accounting`: an allocation, a free of its
payload pointer, a compaction, a task creation and a kill. -/
theorem memory_accounting_witness :
    (∀ op ∈ [MemOp.alloc 100, MemOp.free 16, MemOp.compact,
        MemOp.create "app" true 0, MemOp.kill 1], SizeOK op) ∧
      memSum (runMemOps (kernelInit 0 true)
          [MemOp.alloc 100, MemOp.free 16, MemOp.compact,
            MemOp.create "app" true 0, MemOp.kill 1]) =
        liveSum (runMemOps (kernelInit 0 true)
            [MemOp.alloc 100, MemOp.free 16, MemOp.compact,
              MemOp.create "app" true 0, MemOp.kill 1]).heap := by
  refine ⟨?_, memory_accounting 0 true _ ?_⟩ <;>
    (intro op hop
     fin_cases hop <;>
       first
         | exact trivial
         | exact (by decide : (100 : Nat) ≤ KERNEL_HEAP_SIZE))

/-! ## The wake/selection phase of `Kernel::schedule`, characterised -/

/-- What one iteration of the selection loop does to the slot it
visits: a sleeping task whose `sleepUntil ≤ now` becomes ready, every
other task is untouched. -/
def wakeTask (now : Nat) (t : KTask) : KTask :=
  if t.state = KTaskState.sleeping ∧ t.sleepUntil ≤ now then
    { t with state := KTaskState.ready }
  else t

/-- Slot `j` after the wake phase of the loop. -/
def wokenAt (now : Nat) (ts : List KTask) (j : Nat) : KTask :=
  wakeTask now (ts.getD j default)

theorem wakeTask_priority (now : Nat) (t : KTask) :
    (wakeTask now t).priority = t.priority := by
  unfold wakeTask
  split <;> rfl

theorem wakeTask_hasEntry (now : Nat) (t : KTask) :
    (wakeTask now t).hasEntry = t.hasEntry := by
  unfold wakeTask
  split <;> rfl

theorem wokenAt_eq_of_not_sleeping (now : Nat) (ts : List KTask)
    (i : Nat) (h : (ts.getD i default).state ≠ KTaskState.sleeping) :
    wokenAt now ts i = ts.getD i default := by
  unfold wokenAt wakeTask
  rw [if_neg (fun hc => h hc.1)]

theorem wokenAt_eq_of_due (now : Nat) (ts : List KTask) (i : Nat)
    (h1 : (ts.getD i default).state = KTaskState.sleeping)
    (h2 : (ts.getD i default).sleepUntil ≤ now) :
    wokenAt now ts i =
      { ts.getD i default with state := KTaskState.ready } := by
  unfold wokenAt wakeTask
  rw [if_pos ⟨h1, h2⟩]

theorem wokenAt_eq_of_not_due (now : Nat) (ts : List KTask) (i : Nat)
    (h2 : ¬(ts.getD i default).sleepUntil ≤ now) :
    wokenAt now ts i = ts.getD i default := by
  unfold wokenAt wakeTask
  rw [if_neg (fun hc => h2 hc.2)]

theorem wokenAt_set_ne (now : Nat) (ts : List KTask) (i k : Nat)
    (x : KTask) (h : i ≠ k) :
    wokenAt now (ts.set i x) k = wokenAt now ts k := by
  unfold wokenAt
  rw [getD_set_ne _ _ _ _ _ h]

/-- Full characterisation of the selection loop run from slot `i` with
`fuel = MAX_TASKS - i` iterations and running best pair `(bt, bp)`:
the returned list wakes exactly the visited due sleepers; the returned
best pair is either the incoming one (when no visited woken task is
ready with priority above `bp`) or the first visited woken ready slot
of maximal priority among the visited woken ready slots. -/
theorem scheduleLoop_spec (now : Nat) :
    ∀ (fuel : Nat) (ts : List KTask) (i bt : Nat) (bp : Int),
      i + fuel = MAX_TASKS →
      (scheduleLoop now fuel ts i bt bp).1.length = ts.length ∧
      (∀ j, j < i ∨ ts.length ≤ j →
        (scheduleLoop now fuel ts i bt bp).1.getD j default =
          ts.getD j default) ∧
      (∀ j, i ≤ j → j < MAX_TASKS → j < ts.length →
        (scheduleLoop now fuel ts i bt bp).1.getD j default =
          wokenAt now ts j) ∧
      (((scheduleLoop now fuel ts i bt bp).2 = (bt, bp) ∧
        ∀ k, i ≤ k → k < MAX_TASKS →
          (wokenAt now ts k).state = KTaskState.ready →
          (wokenAt now ts k).priority ≤ bp) ∨
       (∃ j, i ≤ j ∧ j < MAX_TASKS ∧
         (wokenAt now ts j).state = KTaskState.ready ∧
         (scheduleLoop now fuel ts i bt bp).2 =
           (j, (wokenAt now ts j).priority) ∧
         bp < (wokenAt now ts j).priority ∧
         (∀ k, i ≤ k → k < MAX_TASKS →
           (wokenAt now ts k).state = KTaskState.ready →
           (wokenAt now ts k).priority ≤
             (wokenAt now ts j).priority) ∧
         (∀ k, i ≤ k → k < j →
           (wokenAt now ts k).state = KTaskState.ready →
           (wokenAt now ts k).priority <
             (wokenAt now ts j).priority))) := by
  intro fuel
  induction fuel with
  | zero =>
    intro ts i bt bp hsum
    have hM : MAX_TASKS = 8 := rfl
    refine ⟨rfl, fun j _ => rfl,
      fun j hij hj8 _ => absurd hj8 (by omega),
      Or.inl ⟨rfl, fun k hik hk8 _ => absurd hk8 (by omega)⟩⟩
  | succ fuel ih =>
    intro ts i bt bp hsum
    have hM : MAX_TASKS = 8 := rfl
    have hstep : scheduleLoop now (fuel + 1) ts i bt bp =
        (if (ts.getD i default).state = KTaskState.empty then
          scheduleLoop now fuel ts (i + 1) bt bp
        else if (ts.getD i default).state = KTaskState.sleeping then
          if (ts.getD i default).sleepUntil ≤ now then
            (if bp < (ts.getD i default).priority then
              scheduleLoop now fuel
                (ts.set i { ts.getD i default with
                  state := KTaskState.ready }) (i + 1) i
                (ts.getD i default).priority
            else
              scheduleLoop now fuel
                (ts.set i { ts.getD i default with
                  state := KTaskState.ready }) (i + 1) bt bp)
          else scheduleLoop now fuel ts (i + 1) bt bp
        else if (ts.getD i default).state = KTaskState.ready ∧
            bp < (ts.getD i default).priority then
          scheduleLoop now fuel ts (i + 1) i
            (ts.getD i default).priority
        else scheduleLoop now fuel ts (i + 1) bt bp) := rfl
    rw [hstep]
    by_cases h1 : (ts.getD i default).state = KTaskState.empty
    · rw [if_pos h1]
      obtain ⟨ihlen, ihframe, ihwake, ihbest⟩ := ih ts (i + 1) bt bp
        (by omega)
      have hwi : wokenAt now ts i = ts.getD i default :=
        wokenAt_eq_of_not_sleeping now ts i (by rw [h1]; decide)
      have hnready : ¬(wokenAt now ts i).state = KTaskState.ready := by
        rw [hwi, h1]
        decide
      refine ⟨ihlen, ?_, ?_, ?_⟩
      · intro j hj
        rcases hj with hj | hj
        · exact ihframe j (Or.inl (by omega))
        · exact ihframe j (Or.inr hj)
      · intro j hij hj8 hjlen
        by_cases hji : j = i
        · subst hji
          rw [ihframe j (Or.inl (by omega)), hwi]
        · exact ihwake j (by omega) hj8 hjlen
      · rcases ihbest with ⟨hput, hmax⟩ |
          ⟨j, hj1, hj2, hj3, hj4, hj5, hj6, hj7⟩
        · refine Or.inl ⟨hput, fun k hik hk8 hkr => ?_⟩
          by_cases hki : k = i
          · exact absurd (hki ▸ hkr) hnready
          · exact hmax k (by omega) hk8 hkr
        · refine Or.inr ⟨j, by omega, hj2, hj3, hj4, hj5,
            fun k hik hk8 hkr => ?_, fun k hik hkj hkr => ?_⟩
          · by_cases hki : k = i
            · exact absurd (hki ▸ hkr) hnready
            · exact hj6 k (by omega) hk8 hkr
          · by_cases hki : k = i
            · exact absurd (hki ▸ hkr) hnready
            · exact hj7 k (by omega) hkj hkr
    · rw [if_neg h1]
      by_cases h2 : (ts.getD i default).state = KTaskState.sleeping
      · rw [if_pos h2]
        by_cases h3 : (ts.getD i default).sleepUntil ≤ now
        · rw [if_pos h3]
          have hil : i < ts.length := by
            by_contra hle
            rw [getD_of_le ts i default (by omega)] at h2
            exact absurd h2 (by decide)
          have hwi : wokenAt now ts i =
              { ts.getD i default with state := KTaskState.ready } :=
            wokenAt_eq_of_due now ts i h2 h3
          have hready : (wokenAt now ts i).state = KTaskState.ready := by
            rw [hwi]
          have hprioi : (wokenAt now ts i).priority =
              (ts.getD i default).priority := by
            rw [hwi]
          have hbridge : ∀ k, k ≠ i →
              wokenAt now (ts.set i { ts.getD i default with
                state := KTaskState.ready }) k = wokenAt now ts k :=
            fun k hk => wokenAt_set_ne now ts i k _ (fun hh => hk hh.symm)
          have hsetlen : (ts.set i { ts.getD i default with
              state := KTaskState.ready }).length = ts.length :=
            List.length_set ts i _
          by_cases h4 : bp < (ts.getD i default).priority
          · rw [if_pos h4]
            obtain ⟨ihlen, ihframe, ihwake, ihbest⟩ :=
              ih (ts.set i { ts.getD i default with
                state := KTaskState.ready }) (i + 1) i
                ((ts.getD i default).priority) (by omega)
            refine ⟨ihlen.trans hsetlen, ?_, ?_, ?_⟩
            · intro j hj
              rcases hj with hj | hj
              · rw [ihframe j (Or.inl (by omega)),
                  getD_set_ne _ _ _ _ _ (by omega)]
              · rw [ihframe j (Or.inr (by omega)),
                  getD_set_ne _ _ _ _ _ (by omega)]
            · intro j hij hj8 hjlen
              by_cases hji : j = i
              · subst hji
                rw [ihframe j (Or.inl (by omega)),
                  getD_set_self _ _ _ _ hil, hwi]
              · rw [ihwake j (by omega) hj8 (by omega),
                  hbridge j hji]
            · rcases ihbest with ⟨hput, hmax⟩ |
                ⟨j, hj1, hj2, hj3, hj4, hj5, hj6, hj7⟩
              · refine Or.inr ⟨i, le_refl i, by omega, hready, ?_,
                  by omega, fun k hik hk8 hkr => ?_,
                  fun k hik hki _ => absurd hki (by omega)⟩
                · rw [hput, hprioi]
                · by_cases hki : k = i
                  · subst hki
                    exact le_refl _
                  · have := hmax k (by omega) hk8
                      (by rw [hbridge k hki]; exact hkr)
                    rw [hbridge k hki] at this
                    rw [hprioi]
                    exact this
              · rw [hbridge j (by omega)] at hj3 hj4 hj5
                refine Or.inr ⟨j, by omega, hj2, hj3, hj4,
                  by omega, fun k hik hk8 hkr => ?_,
                  fun k hik hkj hkr => ?_⟩
                · by_cases hki : k = i
                  · subst hki
                    rw [hprioi]
                    omega
                  · have := hj6 k (by omega) hk8
                      (by rw [hbridge k hki]; exact hkr)
                    rw [hbridge k hki, hbridge j (by omega)] at this
                    exact this
                · by_cases hki : k = i
                  · subst hki
                    rw [hprioi]
                    omega
                  · have := hj7 k (by omega) hkj
                      (by rw [hbridge k hki]; exact hkr)
                    rw [hbridge k hki, hbridge j (by omega)] at this
                    exact this
          · rw [if_neg h4]
            obtain ⟨ihlen, ihframe, ihwake, ihbest⟩ :=
              ih (ts.set i { ts.getD i default with
                state := KTaskState.ready }) (i + 1) bt bp (by omega)
            refine ⟨ihlen.trans hsetlen, ?_, ?_, ?_⟩
            · intro j hj
              rcases hj with hj | hj
              · rw [ihframe j (Or.inl (by omega)),
                  getD_set_ne _ _ _ _ _ (by omega)]
              · rw [ihframe j (Or.inr (by omega)),
                  getD_set_ne _ _ _ _ _ (by omega)]
            · intro j hij hj8 hjlen
              by_cases hji : j = i
              · subst hji
                rw [ihframe j (Or.inl (by omega)),
                  getD_set_self _ _ _ _ hil, hwi]
              · rw [ihwake j (by omega) hj8 (by omega),
                  hbridge j hji]
            · rcases ihbest with ⟨hput, hmax⟩ |
                ⟨j, hj1, hj2, hj3, hj4, hj5, hj6, hj7⟩
              · refine Or.inl ⟨hput, fun k hik hk8 hkr => ?_⟩
                by_cases hki : k = i
                · subst hki
                  rw [hprioi]
                  omega
                · have := hmax k (by omega) hk8
                    (by rw [hbridge k hki]; exact hkr)
                  rw [hbridge k hki] at this
                  exact this
              · rw [hbridge j (by omega)] at hj3 hj4 hj5
                refine Or.inr ⟨j, by omega, hj2, hj3, hj4, hj5,
                  fun k hik hk8 hkr => ?_, fun k hik hkj hkr => ?_⟩
                · by_cases hki : k = i
                  · subst hki
                    rw [hprioi]
                    omega
                  · have := hj6 k (by omega) hk8
                      (by rw [hbridge k hki]; exact hkr)
                    rw [hbridge k hki, hbridge j (by omega)] at this
                    exact this
                · by_cases hki : k = i
                  · subst hki
                    rw [hprioi]
                    omega
                  · have := hj7 k (by omega) hkj
                      (by rw [hbridge k hki]; exact hkr)
                    rw [hbridge k hki, hbridge j (by omega)] at this
                    exact this
        · rw [if_neg h3]
          obtain ⟨ihlen, ihframe, ihwake, ihbest⟩ := ih ts (i + 1) bt bp
            (by omega)
          have hwi : wokenAt now ts i = ts.getD i default :=
            wokenAt_eq_of_not_due now ts i h3
          have hnready : ¬(wokenAt now ts i).state = KTaskState.ready := by
            rw [hwi, h2]
            decide
          refine ⟨ihlen, ?_, ?_, ?_⟩
          · intro j hj
            rcases hj with hj | hj
            · exact ihframe j (Or.inl (by omega))
            · exact ihframe j (Or.inr hj)
          · intro j hij hj8 hjlen
            by_cases hji : j = i
            · subst hji
              rw [ihframe j (Or.inl (by omega)), hwi]
            · exact ihwake j (by omega) hj8 hjlen
          · rcases ihbest with ⟨hput, hmax⟩ |
              ⟨j, hj1, hj2, hj3, hj4, hj5, hj6, hj7⟩
            · refine Or.inl ⟨hput, fun k hik hk8 hkr => ?_⟩
              by_cases hki : k = i
              · exact absurd (hki ▸ hkr) hnready
              · exact hmax k (by omega) hk8 hkr
            · refine Or.inr ⟨j, by omega, hj2, hj3, hj4, hj5,
                fun k hik hk8 hkr => ?_, fun k hik hkj hkr => ?_⟩
              · by_cases hki : k = i
                · exact absurd (hki ▸ hkr) hnready
                · exact hj6 k (by omega) hk8 hkr
              · by_cases hki : k = i
                · exact absurd (hki ▸ hkr) hnready
                · exact hj7 k (by omega) hkj hkr
      · rw [if_neg h2]
        have hwi : wokenAt now ts i = ts.getD i default :=
          wokenAt_eq_of_not_sleeping now ts i h2
        by_cases h4 : (ts.getD i default).state = KTaskState.ready ∧
            bp < (ts.getD i default).priority
        · rw [if_pos h4]
          obtain ⟨ihlen, ihframe, ihwake, ihbest⟩ := ih ts (i + 1) i
            ((ts.getD i default).priority) (by omega)
          have hready : (wokenAt now ts i).state = KTaskState.ready := by
            rw [hwi]
            exact h4.1
          refine ⟨ihlen, ?_, ?_, ?_⟩
          · intro j hj
            rcases hj with hj | hj
            · exact ihframe j (Or.inl (by omega))
            · exact ihframe j (Or.inr hj)
          · intro j hij hj8 hjlen
            by_cases hji : j = i
            · subst hji
              rw [ihframe j (Or.inl (by omega)), hwi]
            · exact ihwake j (by omega) hj8 hjlen
          · rcases ihbest with ⟨hput, hmax⟩ |
              ⟨j, hj1, hj2, hj3, hj4, hj5, hj6, hj7⟩
            · refine Or.inr ⟨i, le_refl i, by omega, hready, ?_,
                ?_, fun k hik hk8 hkr => ?_,
                fun k hik hki _ => absurd hki (by omega)⟩
              · rw [hput, hwi]
              · rw [hwi]
                exact h4.2
              · by_cases hki : k = i
                · subst hki
                  exact le_refl _
                · have := hmax k (by omega) hk8 hkr
                  rw [hwi]
                  exact this
            · refine Or.inr ⟨j, by omega, hj2, hj3, hj4, ?_,
                fun k hik hk8 hkr => ?_, fun k hik hkj hkr => ?_⟩
              · have : (ts.getD i default).priority <
                    (wokenAt now ts j).priority := hj5
                omega
              · by_cases hki : k = i
                · subst hki
                  rw [hwi]
                  have := hj5
                  omega
                · exact hj6 k (by omega) hk8 hkr
              · by_cases hki : k = i
                · subst hki
                  rw [hwi]
                  have := hj5
                  omega
                · exact hj7 k (by omega) hkj hkr
        · rw [if_neg h4]
          obtain ⟨ihlen, ihframe, ihwake, ihbest⟩ := ih ts (i + 1) bt bp
            (by omega)
          have hile : (wokenAt now ts i).state = KTaskState.ready →
              (wokenAt now ts i).priority ≤ bp := by
            intro hkr
            rw [hwi] at hkr ⊢
            by_contra hgt
            exact h4 ⟨hkr, by omega⟩
          refine ⟨ihlen, ?_, ?_, ?_⟩
          · intro j hj
            rcases hj with hj | hj
            · exact ihframe j (Or.inl (by omega))
            · exact ihframe j (Or.inr hj)
          · intro j hij hj8 hjlen
            by_cases hji : j = i
            · subst hji
              rw [ihframe j (Or.inl (by omega)), hwi]
            · exact ihwake j (by omega) hj8 hjlen
          · rcases ihbest with ⟨hput, hmax⟩ |
              ⟨j, hj1, hj2, hj3, hj4, hj5, hj6, hj7⟩
            · refine Or.inl ⟨hput, fun k hik hk8 hkr => ?_⟩
              by_cases hki : k = i
              · subst hki
                exact hile hkr
              · exact hmax k (by omega) hk8 hkr
            · refine Or.inr ⟨j, by omega, hj2, hj3, hj4, hj5,
                fun k hik hk8 hkr => ?_, fun k hik hkj hkr => ?_⟩
              · by_cases hki : k = i
                · subst hki
                  have := hile hkr
                  omega
                · exact hj6 k (by omega) hk8 hkr
              · by_cases hki : k = i
                · subst hki
                  have := hile hkr
                  omega
                · exact hj7 k (by omega) hkj hkr

theorem checkWatchdog_currentTaskId (now : Nat) (s : Kernel) :
    (s.checkWatchdog now).currentTaskId = s.currentTaskId := by
  unfold Kernel.checkWatchdog
  split
  · rfl
  · split <;> rfl

theorem checkWatchdog_tasks_length (now : Nat) (s : Kernel) :
    (s.checkWatchdog now).tasks.length = s.tasks.length := by
  unfold Kernel.checkWatchdog
  split
  · rfl
  · split
    · rfl
    · simp

theorem watchdogStep_priority (now : Nat) (t : KTask) :
    (watchdogStep now t).priority = t.priority := by
  unfold watchdogStep
  split
  · rfl
  · split
    · rfl
    · split <;> rfl

theorem checkWatchdog_priority (now : Nat) (s : Kernel)
    (h : ∀ t ∈ s.tasks, 0 ≤ t.priority) :
    ∀ t ∈ (s.checkWatchdog now).tasks, 0 ≤ t.priority := by
  unfold Kernel.checkWatchdog
  split
  · exact h
  · split
    · exact h
    · intro t ht
      simp only [List.mem_map] at ht
      obtain ⟨u, hu, rfl⟩ := ht
      rw [watchdogStep_priority]
      exact h u hu

/-- Claim C1 (amended): one `schedule()` call runs the watchdog check,
wakes every sleeping task whose `sleepUntil ≤ now`, and selects the
woken ready task of highest priority, ties broken by lowest slot
(slot 0 when no task is ready, given non-negative priorities).  The
amendment forced by the code: the selected task is marked `Running`
with `lastRun = now` (the previous `Running` task demoted to `Ready`)
only when the selected slot differs from `currentTaskId`; when the
best slot already is `currentTaskId` the switch block is skipped and
the entry point runs only if that task already was `Running` — see
the counterexample, where a `Ready` current task is never invoked. -/
theorem schedule_spec (now : Nat) (s : Kernel) (r : Kernel × Option Nat)
    (B : Nat)
    (hlen : s.tasks.length = MAX_TASKS)
    (hcur : s.currentTaskId < MAX_TASKS)
    (hprio : ∀ t ∈ s.tasks, 0 ≤ t.priority)
    (hr : s.schedule now = r)
    (hB : r.1.currentTaskId = B) :
    B < MAX_TASKS ∧
    r.1.watchdogLastCheck = (s.checkWatchdog now).watchdogLastCheck ∧
    ((B = 0 ∧ ∀ k, k < MAX_TASKS →
        (wokenAt now (s.checkWatchdog now).tasks k).state ≠
          KTaskState.ready) ∨
      ((wokenAt now (s.checkWatchdog now).tasks B).state =
          KTaskState.ready ∧
        (∀ k, k < MAX_TASKS →
          (wokenAt now (s.checkWatchdog now).tasks k).state =
            KTaskState.ready →
          (wokenAt now (s.checkWatchdog now).tasks k).priority ≤
            (wokenAt now (s.checkWatchdog now).tasks B).priority) ∧
        (∀ k, k < B →
          (wokenAt now (s.checkWatchdog now).tasks k).state =
            KTaskState.ready →
          (wokenAt now (s.checkWatchdog now).tasks k).priority <
            (wokenAt now (s.checkWatchdog now).tasks B).priority))) ∧
    (B ≠ s.currentTaskId →
      r.1.tasks.getD B default =
        { wokenAt now (s.checkWatchdog now).tasks B with
          state := KTaskState.running, lastRun := now } ∧
      r.1.tasks.getD s.currentTaskId default =
        (if (wokenAt now (s.checkWatchdog now).tasks
            s.currentTaskId).state = KTaskState.running then
          { wokenAt now (s.checkWatchdog now).tasks s.currentTaskId with
            state := KTaskState.ready }
        else wokenAt now (s.checkWatchdog now).tasks s.currentTaskId) ∧
      (∀ k, k < MAX_TASKS → k ≠ B → k ≠ s.currentTaskId →
        r.1.tasks.getD k default =
          wokenAt now (s.checkWatchdog now).tasks k) ∧
      (r.2 = some B ↔
        (wokenAt now (s.checkWatchdog now).tasks B).hasEntry)) ∧
    (B = s.currentTaskId →
      (∀ k, k < MAX_TASKS →
        r.1.tasks.getD k default =
          wokenAt now (s.checkWatchdog now).tasks k) ∧
      (r.2 = some B ↔
        (wokenAt now (s.checkWatchdog now).tasks B).hasEntry ∧
        (wokenAt now (s.checkWatchdog now).tasks B).state =
          KTaskState.running)) := by
  subst hB
  subst hr
  have hM : MAX_TASKS = 8 := rfl
  have hc1 := checkWatchdog_currentTaskId now s
  have hlen1 : (s.checkWatchdog now).tasks.length = MAX_TASKS :=
    (checkWatchdog_tasks_length now s).trans hlen
  have hprio1 := checkWatchdog_priority now s hprio
  obtain ⟨Llen, Lframe, Lwake, Lbest⟩ :=
    scheduleLoop_spec now MAX_TASKS (s.checkWatchdog now).tasks 0 0 (-1)
      (by omega)
  have hLl : (scheduleLoop now MAX_TASKS (s.checkWatchdog now).tasks
      0 0 (-1)).1.length = MAX_TASKS := Llen.trans hlen1
  have hwprio : ∀ k, k < MAX_TASKS →
      0 ≤ (wokenAt now (s.checkWatchdog now).tasks k).priority := by
    intro k hk
    show 0 ≤ (wakeTask now
      ((s.checkWatchdog now).tasks.getD k default)).priority
    rw [wakeTask_priority]
    rcases getD_mem_or_eq (s.checkWatchdog now).tasks k default with
      hm | hm
    · exact hprio1 _ hm
    · rw [hm]
      decide
  have hcw : (scheduleLoop now MAX_TASKS (s.checkWatchdog now).tasks
      0 0 (-1)).1.getD s.currentTaskId default =
      wokenAt now (s.checkWatchdog now).tasks s.currentTaskId :=
    Lwake s.currentTaskId (Nat.zero_le _) (by omega) (by omega)
  unfold Kernel.schedule
  dsimp only
  simp only [hc1]
  by_cases hsw : (scheduleLoop now MAX_TASKS
      (s.checkWatchdog now).tasks 0 0 (-1)).2.1 = s.currentTaskId
  · rw [if_neg (not_not_intro hsw)]
    dsimp only
    refine ⟨by omega, rfl, ?_, fun hne => absurd rfl hne, fun _ => ?_⟩
    · rcases Lbest with ⟨hput, hmax⟩ |
        ⟨j, hj1, hj2, hj3, hj4, hj5, hj6, hj7⟩
      · have h21 : (scheduleLoop now MAX_TASKS
            (s.checkWatchdog now).tasks 0 0 (-1)).2.1 = 0 := by
          rw [hput]
        refine Or.inl ⟨by omega, fun k hk hkr => ?_⟩
        have := hmax k (Nat.zero_le _) hk hkr
        have := hwprio k hk
        omega
      · have h21 : (scheduleLoop now MAX_TASKS
            (s.checkWatchdog now).tasks 0 0 (-1)).2.1 = j := by
          rw [hj4]
        have hBj : s.currentTaskId = j := by omega
        rw [hBj]
        exact Or.inr ⟨hj3,
          fun k hk hkr => hj6 k (Nat.zero_le _) hk hkr,
          fun k hkj hkr => hj7 k (Nat.zero_le _) hkj hkr⟩
    · constructor
      · intro k hk
        exact Lwake k (Nat.zero_le _) hk (by omega)
      · rw [hcw]
        by_cases hC : (wokenAt now (s.checkWatchdog now).tasks
            s.currentTaskId).hasEntry = true ∧
            (wokenAt now (s.checkWatchdog now).tasks
              s.currentTaskId).state = KTaskState.running
        · rw [if_pos hC]
          exact iff_of_true rfl hC
        · rw [if_neg hC]
          exact iff_of_false (by simp) hC
  · rw [if_pos hsw]
    dsimp only
    rw [hcw]
    rcases Lbest with ⟨hput, hmax⟩ |
      ⟨j, hj1, hj2, hj3, hj4, hj5, hj6, hj7⟩
    · -- no ready task: best slot 0
      have h21 : (scheduleLoop now MAX_TASKS
          (s.checkWatchdog now).tasks 0 0 (-1)).2.1 = 0 := by
        rw [hput]
      rw [h21]
      have hv8 : (0 : Nat) < MAX_TASKS := by omega
      have hneq : (0 : Nat) ≠ s.currentTaskId := by omega
      have hL0 : (scheduleLoop now MAX_TASKS
          (s.checkWatchdog now).tasks 0 0 (-1)).1.getD 0 default =
          wokenAt now (s.checkWatchdog now).tasks 0 :=
        Lwake 0 (Nat.zero_le _) hv8 (by omega)
      by_cases hdem : (wokenAt now (s.checkWatchdog now).tasks
          s.currentTaskId).state = KTaskState.running
      · rw [if_pos hdem]
        rw [getD_set_self _ _ _ _ (by rw [List.length_set]; omega),
          getD_set_ne _ _ _ _ _ (Ne.symm hneq), hL0]
        refine ⟨hv8, rfl, Or.inl ⟨rfl, fun k hk hkr => ?_⟩,
          fun _ => ⟨rfl, ?_, ?_, ?_⟩, fun heq => absurd heq hneq⟩
        · have := hmax k (Nat.zero_le _) hk hkr
          have := hwprio k hk
          omega
        · rw [if_pos hdem,
            getD_set_ne _ _ _ _ _ hneq,
            getD_set_self _ _ _ _ (by omega)]
        · intro k hk hkB hkC
          rw [getD_set_ne _ _ _ _ _ (fun hh => hkB hh.symm),
            getD_set_ne _ _ _ _ _ (fun hh => hkC hh.symm)]
          exact Lwake k (Nat.zero_le _) hk (by omega)
        · by_cases hent : (wokenAt now (s.checkWatchdog now).tasks
              0).hasEntry = true
          · rw [if_pos ⟨hent, rfl⟩]
            exact iff_of_true rfl hent
          · rw [if_neg (fun hc => hent hc.1)]
            exact iff_of_false (by simp) hent
      · rw [if_neg hdem]
        rw [getD_set_self _ _ _ _ (by omega), hL0]
        refine ⟨hv8, rfl, Or.inl ⟨rfl, fun k hk hkr => ?_⟩,
          fun _ => ⟨rfl, ?_, ?_, ?_⟩, fun heq => absurd heq hneq⟩
        · have := hmax k (Nat.zero_le _) hk hkr
          have := hwprio k hk
          omega
        · rw [if_neg hdem,
            getD_set_ne _ _ _ _ _ hneq, hcw]
        · intro k hk hkB hkC
          rw [getD_set_ne _ _ _ _ _ (fun hh => hkB hh.symm)]
          exact Lwake k (Nat.zero_le _) hk (by omega)
        · by_cases hent : (wokenAt now (s.checkWatchdog now).tasks
              0).hasEntry = true
          · rw [if_pos ⟨hent, rfl⟩]
            exact iff_of_true rfl hent
          · rw [if_neg (fun hc => hent hc.1)]
            exact iff_of_false (by simp) hent
    · -- a ready task exists: best slot j
      have h21 : (scheduleLoop now MAX_TASKS
          (s.checkWatchdog now).tasks 0 0 (-1)).2.1 = j := by
        rw [hj4]
      rw [h21]
      have hv8 : j < MAX_TASKS := hj2
      have hneq : j ≠ s.currentTaskId := h21 ▸ hsw
      have hLj : (scheduleLoop now MAX_TASKS
          (s.checkWatchdog now).tasks 0 0 (-1)).1.getD j default =
          wokenAt now (s.checkWatchdog now).tasks j :=
        Lwake j (Nat.zero_le _) hv8 (by omega)
      by_cases hdem : (wokenAt now (s.checkWatchdog now).tasks
          s.currentTaskId).state = KTaskState.running
      · rw [if_pos hdem]
        rw [getD_set_self _ _ _ _ (by rw [List.length_set]; omega),
          getD_set_ne _ _ _ _ _ (Ne.symm hneq), hLj]
        refine ⟨hv8, rfl, Or.inr ⟨hj3,
            fun k hk hkr => hj6 k (Nat.zero_le _) hk hkr,
            fun k hkj hkr => hj7 k (Nat.zero_le _) hkj hkr⟩,
          fun _ => ⟨rfl, ?_, ?_, ?_⟩, fun heq => absurd heq hneq⟩
        · rw [if_pos hdem,
            getD_set_ne _ _ _ _ _ hneq,
            getD_set_self _ _ _ _ (by omega)]
        · intro k hk hkB hkC
          rw [getD_set_ne _ _ _ _ _ (fun hh => hkB hh.symm),
            getD_set_ne _ _ _ _ _ (fun hh => hkC hh.symm)]
          exact Lwake k (Nat.zero_le _) hk (by omega)
        · by_cases hent : (wokenAt now (s.checkWatchdog now).tasks
              j).hasEntry = true
          · rw [if_pos ⟨hent, rfl⟩]
            exact iff_of_true rfl hent
          · rw [if_neg (fun hc => hent hc.1)]
            exact iff_of_false (by simp) hent
      · rw [if_neg hdem]
        rw [getD_set_self _ _ _ _ (by omega), hLj]
        refine ⟨hv8, rfl, Or.inr ⟨hj3,
            fun k hk hkr => hj6 k (Nat.zero_le _) hk hkr,
            fun k hkj hkr => hj7 k (Nat.zero_le _) hkj hkr⟩,
          fun _ => ⟨rfl, ?_, ?_, ?_⟩, fun heq => absurd heq hneq⟩
        · rw [if_neg hdem,
            getD_set_ne _ _ _ _ _ hneq, hcw]
        · intro k hk hkB hkC
          rw [getD_set_ne _ _ _ _ _ (fun hh => hkB hh.symm)]
          exact Lwake k (Nat.zero_le _) hk (by omega)
        · by_cases hent : (wokenAt now (s.checkWatchdog now).tasks
              j).hasEntry = true
          · rw [if_pos ⟨hent, rfl⟩]
            exact iff_of_true rfl hent
          · rw [if_neg (fun hc => hent hc.1)]
            exact iff_of_false (by simp) hent

/-- A kernel state whose current task (slot 1) is `Ready` with the
highest priority: `schedule()` recomputes `bestTask = 1`, the switch
guard `bestTask != currentTaskId` fails, and the quantum neither marks
the task `Running` nor invokes its entry point. -/
def sC1 : Kernel :=
  { kernelInit 0 true with
    currentTaskId := 1,
    tasks := (kernelInit 0 true).tasks.set 1
      { KTask.zeroed with
        id := 1
        state := KTaskState.ready
        priority := 10
        hasEntry := true } }

/-- Counterexample to the literal Claim C1: on `sC1` the selected
highest-priority ready task is the current one, so `schedule()` skips
the switch block, never marks it `Running`, and invokes no entry point
at all (not "exactly once"). -/
theorem schedule_missed_invocation :
    (sC1.schedule 0).2 = none ∧
      ((sC1.schedule 0).1.tasks.getD 1 default).state =
        KTaskState.ready := by
  decide

/-- A fresh kernel with a ready entry-point task in slot 2: the
schedule quantum elects and switches to it. -/
def sWsched : Kernel :=
  { kernelInit 0 true with
    tasks := (kernelInit 0 true).tasks.set 2
      { KTask.zeroed with
        id := 2
        state := KTaskState.ready
        priority := 10
        hasEntry := true } }

/-- Witness for `schedule_spec` at the concrete state `sWsched`. -/
theorem schedule_spec_witness :
    (sWsched.tasks.length = MAX_TASKS ∧
      sWsched.currentTaskId < MAX_TASKS ∧
      (∀ t ∈ sWsched.tasks, 0 ≤ t.priority)) ∧
    (sWsched.schedule 0).1.currentTaskId < MAX_TASKS :=
  ⟨⟨by decide, by decide, by decide⟩,
    (schedule_spec 0 sWsched (sWsched.schedule 0)
      ((sWsched.schedule 0).1.currentTaskId)
      (by decide) (by decide) (by decide) rfl rfl).1⟩

/-! ## Byte-level heap (`uint8_t kernelHeap[KERNEL_HEAP_SIZE]`)

The block-list view of the heap used above abstracts the byte array:
it keeps only the block layout below the watermark, so it cannot see
what `freeMemoryInternal` reads when handed a pointer that is not a
current block boundary.  The C code validates nothing there: it reads
`ptr - sizeof(MemoryBlock)` as a header, and `compactMemory`'s
`memmove` sweep leaves the moved blocks' source bytes — old headers
included — intact beyond the new watermark.  The definitions below
embed `allocateMemoryInternal`, `freeMemoryInternal` and
`compactMemory` at byte granularity to capture that path.  The target
(Arduino Giga R1, ARM Cortex-M7) is little-endian; `MemoryBlock` lays
out `size_t size` at offset 0, `int ownerTaskId` at 4, `bool inUse`
at 8 (plus three padding bytes the code never writes or reads) and
`int handleId` at 12, for `sizeof(MemoryBlock) = 16`. -/

/-- The heap byte array, sparsely: `bytes` holds the prefix the kernel
has written, every byte beyond is `0` (the array is a zero-initialised
static); `used` is `heapUsed`; `memoryUsed` is the `uint32_t`
`tasks[i].memoryUsed` column of the task table; `panicked` records
that `panic()` ran — it halts the machine in an endless blink loop, so
no later call executes. -/
structure HeapSim where
  bytes : List Nat
  used : Nat
  memoryUsed : List Nat
  panicked : Bool

/-- Read `kernelHeap[i]` (bytes never written are `0`). -/
def hsReadByte (b : List Nat) (i : Nat) : Nat := b.getD i 0

/-- Write `kernelHeap[i] = v`, materialising intervening zero bytes. -/
def hsWriteByte (b : List Nat) (i v : Nat) : List Nat :=
  if i < b.length then b.set i v
  else b ++ List.replicate (i - b.length) 0 ++ [v]

/-- Read a 32-bit little-endian word at byte offset `i`. -/
def hsReadWord (b : List Nat) (i : Nat) : Nat :=
  hsReadByte b i + 256 * hsReadByte b (i + 1) +
    65536 * hsReadByte b (i + 2) + 16777216 * hsReadByte b (i + 3)

/-- Write a 32-bit little-endian word at byte offset `i`. -/
def hsWriteWord (b : List Nat) (i v : Nat) : List Nat :=
  hsWriteByte (hsWriteByte (hsWriteByte (hsWriteByte b
    i (v % 256))
    (i + 1) (v / 256 % 256))
    (i + 2) (v / 65536 % 256))
    (i + 3) (v / 16777216 % 256)

/-- An `int` stored in a word: two's complement. -/
def hsDecodeInt (w : Nat) : Int :=
  if w < 2147483648 then (w : Int) else (w : Int) - (U32 : Int)

/-- A two's-complement word for an `int` value. -/
def hsEncodeInt (v : Int) : Nat := (v % (U32 : Int)).toNat

/-- `(MemoryBlock*)&kernelHeap[i]`, read field by field.  The `bool`
read follows the machine: any non-zero byte reads as `true`. -/
def hsReadHeader (b : List Nat) (i : Nat) : MemoryBlock :=
  { size := hsReadWord b i,
    ownerTaskId := hsDecodeInt (hsReadWord b (i + 4)),
    inUse := hsReadByte b (i + 8) != 0,
    handleId := hsDecodeInt (hsReadWord b (i + 12)) }

/-- `memmove(&kernelHeap[dst], &kernelHeap[src], len)`: every copied
byte is read from the pre-call array, as `memmove` guarantees. -/
def hsMemmoveAux (orig : List Nat) (dst src : Nat) :
    Nat → List Nat → List Nat
  | 0, acc => acc
  | k + 1, acc =>
    hsMemmoveAux orig dst src k
      (hsWriteByte acc (dst + k) (hsReadByte orig (src + k)))

def hsMemmove (b : List Nat) (dst src len : Nat) : List Nat :=
  hsMemmoveAux b dst src len b

/-- The sweep loop of `Kernel::compactMemory`, with the `size_t`
cursor arithmetic and the post-increment corruption check
(`readPos > KERNEL_HEAP_SIZE || writePos > KERNEL_HEAP_SIZE`), which
calls `panic` and breaks.  Returns `(bytes, writePos, panicked)`.
The fuel only bounds the iteration count: every terminating run of the
C loop advances `readPos` each iteration, so `used + 1` iterations
reproduce it exactly; the loop fails to advance only when
`sizeof(MemoryBlock) + block->size` wraps to `0`, where the C code
spins forever and no final state exists to model. -/
def hsCompactLoop (used : Nat) :
    Nat → List Nat → Nat → Nat → List Nat × Nat × Bool
  | 0, bytes, writePos, _ => (bytes, writePos, false)
  | fuel + 1, bytes, writePos, readPos =>
    if readPos < used then
      let b := hsReadHeader bytes readPos
      let blockTotalSize := (MEMORY_BLOCK_HEADER_SIZE + b.size) % U32
      let bytes1 :=
        if b.inUse then
          if writePos ≠ readPos then
            hsMemmove bytes writePos readPos blockTotalSize
          else bytes
        else bytes
      let writePos1 :=
        if b.inUse then (writePos + blockTotalSize) % U32 else writePos
      let readPos1 := (readPos + blockTotalSize) % U32
      if KERNEL_HEAP_SIZE < readPos1 ∨ KERNEL_HEAP_SIZE < writePos1 then
        (bytes1, writePos1, true)
      else hsCompactLoop used fuel bytes1 writePos1 readPos1
    else (bytes, writePos, false)

/-- `Kernel::compactMemory()` on the byte array.  On a normal exit
`heapUsed = writePos`; when the corruption check fired, `panic()`
halted the machine before that assignment, so `used` keeps its old
value and the state is frozen by the `panicked` flag.  Note the
`memmove` sweep writes only below the new watermark: the source bytes
of every moved block — stale headers included — survive above it. -/
def hsCompactMemory (s : HeapSim) : HeapSim :=
  let r := hsCompactLoop s.used (s.used + 1) s.bytes 0 0
  if r.2.2 then { s with bytes := r.1, panicked := true }
  else { s with bytes := r.1, used := r.2.1 }

/-- `Kernel::freeMemoryInternal(ptr)` on the byte array, for a payload
offset `ptr`: no validation beyond the null check and the `inUse` bit
of whatever 16 bytes precede `ptr`.  A header-shaped stale byte
pattern — such as the old copy of a block `compactMemory` moved —
passes the check, decrements the recorded owner's accounting by the
stale `size`, and has its `inUse` byte cleared.  (For `0 < ptr < 16`
the C reads before the array, which is out of bounds; the offset
arithmetic below truncates at 0.) -/
def hsFreeMemoryInternal (ptr : Nat) (s : HeapSim) : HeapSim :=
  if ptr = 0 then s
  else
    let hdr := ptr - MEMORY_BLOCK_HEADER_SIZE
    let b := hsReadHeader s.bytes hdr
    if b.inUse then
      let memoryUsed :=
        if 0 ≤ b.ownerTaskId ∧ b.ownerTaskId < (MAX_TASKS : Int) then
          s.memoryUsed.set b.ownerTaskId.toNat
            (u32sub (s.memoryUsed.getD b.ownerTaskId.toNat 0) b.size)
        else s.memoryUsed
      { s with
        bytes := hsWriteByte s.bytes (hdr + 8) 0,
        memoryUsed := memoryUsed }
    else s

/-- `Kernel::allocateMemoryInternal(size, taskId)` on the byte array:
the same 32-bit arithmetic as the block-list embedding, with the
header written field by field at `kernelHeap[heapUsed]`.  If the
compaction retry panicked, the machine halted: `used` is unchanged, so
the re-check fails again and the state is returned frozen. -/
def hsAllocateMemoryInternal (size : Nat) (taskId : Int) (s : HeapSim) :
    HeapSim × Option Nat :=
  let sz := size % U32
  if sz = 0 then (s, none)
  else
    let sz := (sz + 3) % U32 / 4 * 4
    let totalNeeded := (MEMORY_BLOCK_HEADER_SIZE + sz) % U32
    let s := if KERNEL_HEAP_SIZE < (s.used + totalNeeded) % U32
             then hsCompactMemory s else s
    if KERNEL_HEAP_SIZE < (s.used + totalNeeded) % U32 then (s, none)
    else
      let base := s.used
      let bytes :=
        hsWriteWord (hsWriteByte (hsWriteWord (hsWriteWord s.bytes
          base sz)
          (base + 4) (hsEncodeInt taskId))
          (base + 8) 1)
          (base + 12) (hsEncodeInt (-1))
      let memoryUsed :=
        if 0 ≤ taskId ∧ taskId < (MAX_TASKS : Int) then
          s.memoryUsed.set taskId.toNat
            (u32add (s.memoryUsed.getD taskId.toNat 0) sz)
        else s.memoryUsed
      ({ bytes := bytes, used := (base + totalNeeded) % U32,
         memoryUsed := memoryUsed, panicked := s.panicked },
       some (base + MEMORY_BLOCK_HEADER_SIZE))

/-- The heap calls of Claim C2's sequence.  `createTask` and
`killTask` touch neither the heap bytes, the watermark, nor any
`memoryUsed` field (`createTask` zeroes a slot whose accounting is
already zero; `killTask` deliberately does not refund), and none of
the five calls changes `currentTaskId` from the boot value `0`, so
`memAlloc` always charges task 0. -/
inductive HeapOp where
  | alloc (size : Nat)
  | free (ptr : Nat)
  | compact

/-- Apply one call; after a `panic()` the machine is halted, so no
further call runs. -/
def hsApply (s : HeapSim) : HeapOp → HeapSim
  | HeapOp.alloc size =>
    if s.panicked then s else (hsAllocateMemoryInternal size 0 s).1
  | HeapOp.free ptr =>
    if s.panicked then s else hsFreeMemoryInternal ptr s
  | HeapOp.compact =>
    if s.panicked then s else hsCompactMemory s

def hsRun (s : HeapSim) (ops : List HeapOp) : HeapSim :=
  ops.foldl hsApply s

/-- Boot state: a zeroed array, `heapUsed = 0`, all accounting zero. -/
def hsInit : HeapSim :=
  { bytes := [], used := 0,
    memoryUsed := List.replicate MAX_TASKS 0, panicked := false }

/-- Sum of `block.size` over the in-use blocks of the heap, walking
the header chain from offset 0 below the watermark exactly as
`compactMemory` and `printMemoryInfo` do
(`readPos += sizeof(MemoryBlock) + block->size`). -/
def hsLiveSumAux (bytes : List Nat) (used : Nat) : Nat → Nat → Nat
  | 0, _ => 0
  | fuel + 1, pos =>
    if pos < used then
      let b := hsReadHeader bytes pos
      (if b.inUse then b.size else 0) +
        hsLiveSumAux bytes used fuel
          ((pos + (MEMORY_BLOCK_HEADER_SIZE + b.size) % U32) % U32)
    else 0

def hsLiveSum (s : HeapSim) : Nat :=
  hsLiveSumAux s.bytes s.used (s.used + 1) 0

set_option maxRecDepth 100000 in
/-- Claim C2 fails on the program itself: from boot, `memAlloc 100`
(payload offset 16), `memAlloc 100` (payload offset 132),
`memFree 16`, `memCompact` — the second block moves to offset 0, its
old header at offset 116 surviving beyond the new watermark 116 —
then `memFree 132` with the now-stale pointer.  The stale header
reads `{size = 100, owner = 0, inUse = true}`, so the free is
accepted and task 0 is debited again: Σ `memoryUsed` ends at 0 while
the one live block still has size 100.  Every request is far below
`KERNEL_HEAP_SIZE` and no panic occurs. -/
theorem memory_accounting_stale_free :
    (hsRun hsInit [HeapOp.alloc 100, HeapOp.alloc 100, HeapOp.free 16,
        HeapOp.compact, HeapOp.free 132]).memoryUsed.sum = 0 ∧
    hsLiveSum (hsRun hsInit [HeapOp.alloc 100, HeapOp.alloc 100,
        HeapOp.free 16, HeapOp.compact, HeapOp.free 132]) = 100 ∧
    (hsRun hsInit [HeapOp.alloc 100, HeapOp.alloc 100, HeapOp.free 16,
        HeapOp.compact, HeapOp.free 132]).used = 116 ∧
    (hsRun hsInit [HeapOp.alloc 100, HeapOp.alloc 100, HeapOp.free 16,
        HeapOp.compact, HeapOp.free 132]).panicked = false := by
  decide
